import Mathlib

/-!
Verification of the TernFS per-shard metadata state engine
(src/cpp/shard/ShardDB.cpp, src/cpp/core/Bincode.hpp).

The development shallowly embeds the state machine: the RocksDB column
families become association lists inside `ShardState`, a RocksDB
`WriteBatch` becomes a `List BatchOp` (with `SetSavePoint` /
`RollbackToSavePoint` modelled by `List.take` at the savepoint length),
and each `_apply*` / `_prepare*` handler of `ShardDBImpl` becomes a Lean
function threading the read state and the batch exactly as the C++ does
(reads inside an apply go to the committed state, writes go to the
batch).  `ALWAYS_ASSERT` failures (which abort the process) are
modelled by returning `none` from an `Option`.

Value layouts (`ShardDBData.hpp`), the message structs (`MsgsGen.hpp`),
the crc32c / AES-CBC-MAC primitives and the xxh3 name hash are not part
of the two provided source files; they are modelled from the spec where
needed, each with a doc comment saying so.  No theorem below depends on
the concrete values of those stand-ins, only on their determinism.
-/

namespace TernFS

/-- Error taxonomy (spec §7, `TernError` in the sources); only the
constructors exercised by the embedded handlers are listed. -/
inductive TernError where
  | NO_ERROR
  | TYPE_IS_NOT_DIRECTORY
  | TYPE_IS_DIRECTORY
  | BAD_SHARD
  | BAD_COOKIE
  | BAD_NAME
  | BAD_SPAN_BODY
  | SAME_SOURCE_AND_DESTINATION
  | DIRECTORY_NOT_FOUND
  | FILE_NOT_FOUND
  | MTIME_IS_TOO_RECENT
  | MORE_RECENT_SNAPSHOT_EDGE
  | MORE_RECENT_CURRENT_EDGE
  | NAME_IS_LOCKED
  | MISMATCHING_TARGET
  | MISMATCHING_CREATION_TIME
  | CANNOT_OVERRIDE_NAME
  | EDGE_NOT_FOUND
  | EDGE_IS_LOCKED
  | EDGE_NOT_OWNED
  | SPAN_NOT_FOUND
  | LAST_SPAN_STATE_NOT_CLEAN
  | CANNOT_CERTIFY_BLOCKLESS_SPAN
  | BAD_NUMBER_OF_BLOCKS_PROOFS
  | BAD_BLOCK_PROOF
  deriving DecidableEq, Repr

/-! ## Binary codec (src/cpp/core/Bincode.hpp)

Bytes are modelled as naturals `< 256`; a buffer is a `List Nat`.
`BincodeBuf::pack*` write into a caller-provided buffer, panicking
(`ensureSizeOrPanic`) when it is too small; packing is modelled as
emitting the written bytes, i.e. as a function to the byte list that
ends up in the buffer.  `unpack*` consume from the front of the
remaining bytes and throw `BincodeException` on underflow, modelled by
`Except`. -/

/-- `BincodeException` (Bincode.hpp line 252): the only information the
round-trip statements need is that unpacking failed. -/
inductive BincodeErr where
  | notEnoughBytes
  deriving DecidableEq, Repr

/-- Little-endian byte encoding of `v` on `w` bytes: the byte sequence
`memcpy` produces for a `w`-byte little-endian integer
(`BincodeBuf::packScalar`, Bincode.hpp lines 298-305). -/
def natToLE : Nat → Nat → List Nat
  | 0, _ => []
  | w + 1, v => v % 256 :: natToLE w (v / 256)

/-- Little-endian decoding, inverse direction of `natToLE`
(`BincodeBuf::unpackScalar`'s `memcpy` into a `w`-byte integer). -/
def leToNat : List Nat → Nat
  | [] => 0
  | b :: bs => b + 256 * leToNat bs

/-- `BincodeBuf::packScalar<A>` for a `w = sizeof(A)` byte integral
type holding value `v` (little-endian `memcpy`). -/
def packScalar (w v : Nat) : List Nat := natToLE w v

/-- `BincodeBuf::unpackScalar<A>` (Bincode.hpp lines 342-353): fails when
fewer than `sizeof(A)` bytes remain, otherwise consumes them. -/
def unpackScalar (w : Nat) (bs : List Nat) : Except BincodeErr (Nat × List Nat) :=
  if bs.length < w then .error .notEnoughBytes
  else .ok (leToNat (bs.take w), bs.drop w)

/-- `BincodeBuf::packFixedBytes<SZ>` (lines 307-312): raw `memcpy` of the
`SZ` bytes. -/
def packFixedBytes (x : List Nat) : List Nat := x

/-- `BincodeBuf::unpackFixedBytes<SZ>` (lines 355-362). -/
def unpackFixedBytes (sz : Nat) (bs : List Nat) : Except BincodeErr (List Nat × List Nat) :=
  if bs.length < sz then .error .notEnoughBytes
  else .ok (bs.take sz, bs.drop sz)

/-- `BincodeBuf::packBytes` (lines 314-319): one length byte followed by
the data; `BincodeBytes` guarantees `size < 256`. -/
def packBytes (x : List Nat) : List Nat := x.length :: x

/-- `BincodeBytes::packedSize` (Bincode.hpp line 129). -/
def bytesPackedSize (x : List Nat) : Nat := 1 + x.length

/-- `BincodeBuf::unpackBytes` (lines 364-371). -/
def unpackBytes (bs : List Nat) : Except BincodeErr (List Nat × List Nat) :=
  match bs with
  | [] => .error .notEnoughBytes
  | len :: rest =>
    if rest.length < len then .error .notEnoughBytes
    else .ok (rest.take len, rest.drop len)

/-- `BincodeBuf::packList<A>` (lines 321-340): two-byte little-endian
length prefix, then each element packed in order.  For integral `A` the
C++ `memcpy`s the packed array, which produces exactly the
concatenation of the little-endian encodings of the elements, i.e. the
generic path with `packEl = packScalar (sizeof A)`. -/
def packList (packEl : α → List Nat) (els : List α) : List Nat :=
  natToLE 2 els.length ++ els.flatMap packEl

/-- `BincodeList::packedSize` (Bincode.hpp lines 155-165). -/
def listPackedSize (elSize : α → Nat) (els : List α) : Nat :=
  2 + (els.map elSize).sum

/-- Helper of `unpackList`: unpack exactly `n` elements in order. -/
def unpackElems (unpackEl : List Nat → Except BincodeErr (α × List Nat)) :
    Nat → List Nat → Except BincodeErr (List α × List Nat)
  | 0, bs => .ok ([], bs)
  | n + 1, bs =>
    match unpackEl bs with
    | .error e => .error e
    | .ok (x, bs') =>
      match unpackElems unpackEl n bs' with
      | .error e => .error e
      | .ok (xs, bs'') => .ok (x :: xs, bs'')

/-- `BincodeBuf::unpackList<A>` (lines 373-393): read the `u16` length,
then that many elements. -/
def unpackList (unpackEl : List Nat → Except BincodeErr (α × List Nat))
    (bs : List Nat) : Except BincodeErr (List α × List Nat) :=
  match unpackScalar 2 bs with
  | .error e => .error e
  | .ok (n, rest) => unpackElems unpackEl n rest

/-! ## Name validation (ShardDB.cpp lines 98-111) -/

/-- `validName` (ShardDB.cpp lines 98-111): a name (a byte string of at
most 255 bytes, the bound enforced by the `BincodeBytes` length byte) is
valid iff it is non-empty, differs from `"."` and `".."`, and contains
neither `'/'` (byte 47) nor NUL (byte 0). -/
def validName (name : List Nat) : Bool :=
  if name.length = 0 then false
  else if name = [46] ∨ name = [46, 46] then false
  else name.all fun c => c ≠ 47 && c ≠ 0

/-! ## Identifiers and on-disk bodies (spec §3, `ShardDBData.hpp` /
`Msgs.hpp` layouts, which are not under src/) -/

/-- Modelled from the spec: `InodeId` (Msgs.hpp, not under src/) is a
64-bit integer whose low byte is the shard and whose top two bits encode
the inode type.  The concrete bit patterns of the three types are not in
the provided sources; we fix FILE = 0, SYMLINK = 1, DIRECTORY = 2 (no
claim depends on the choice). -/
structure InodeId where
  u64 : Nat
  deriving DecidableEq, Repr

inductive InodeType where
  | FILE
  | SYMLINK
  | DIRECTORY
  | RESERVED
  deriving DecidableEq, Repr

/-- `InodeId::shard()`: the low byte. -/
def InodeId.shard (i : InodeId) : Nat := i.u64 % 256

/-- `InodeId::type()`: the top two bits. -/
def InodeId.ityp (i : InodeId) : InodeType :=
  match i.u64 / 2 ^ 62 % 4 with
  | 0 => .FILE
  | 1 => .SYMLINK
  | 2 => .DIRECTORY
  | _ => .RESERVED

/-- `NULL_INODE_ID`: the all-zero inode id. -/
def NULL_INODE_ID : InodeId := ⟨0⟩

/-- Modelled from the spec: `ROOT_DIR_INODE_ID` is a fixed
directory-typed inode id living on one shard; we place it on shard 0
with index 0. -/
def ROOT_DIR_INODE_ID : InodeId := ⟨2 * 2 ^ 62⟩

/-- `SpanState` (transient-file last-span state, spec §3). -/
inductive SpanState where
  | CLEAN
  | DIRTY
  | CONDEMNED
  deriving DecidableEq, Repr

/-- Modelled from the spec §3: `DirectoryBody` — version, owner id,
mtime, hash mode, opaque directory-info blob.  Times are nanoseconds
(`TernTime`) as naturals. -/
structure DirectoryBody where
  version : Nat
  ownerId : InodeId
  mtime : Nat
  hashMode : Nat
  info : List Nat
  deriving DecidableEq, Repr

/-- Modelled from the spec §3: `TransientFileBody` — version, file size,
mtime, deadline, last-span state, short note. -/
structure TransientFileBody where
  version : Nat
  fileSize : Nat
  mtime : Nat
  deadline : Nat
  lastSpanState : SpanState
  note : List Nat
  deriving DecidableEq, Repr

/-- Modelled from the spec §3: `FileBody` — version, mtime, atime, file
size. -/
structure FileBody where
  version : Nat
  mtime : Nat
  atime : Nat
  fileSize : Nat
  deriving DecidableEq, Repr

/-- Modelled from the spec §3: the value of a current edge —
`{target_id, locked?, creation_time}` (`CurrentEdgeBody`,
`targetIdWithLocked` packs the lock bit next to the id). -/
structure CurrentEdgeBody where
  version : Nat
  targetId : InodeId
  locked : Bool
  creationTime : Nat
  deriving DecidableEq, Repr

/-- Modelled from the spec §3: the value of a snapshot edge —
`{target_id, owned?}` (`SnapshotEdgeBody`). -/
structure SnapshotEdgeBody where
  version : Nat
  targetId : InodeId
  owned : Bool
  deriving DecidableEq, Repr

/-- Key of a current edge in the `edges` column family:
`(dir, current=true, hash(name), name)`.  The `edges` CF holds current
and snapshot edges segregated by the `current` flag of `EdgeKey`; the
embedding keeps the two sections as two maps. -/
structure CurrentEdgeKey where
  dirId : InodeId
  nameHash : Nat
  name : List Nat
  deriving DecidableEq, Repr

/-- Key of a snapshot edge: `(dir, current=false, hash(name), name,
creation_time)`. -/
structure SnapshotEdgeKey where
  dirId : InodeId
  nameHash : Nat
  name : List Nat
  creationTime : Nat
  deriving DecidableEq, Repr

/-- `Parity` (spec §3): D data blocks, P parity blocks, packed in one
byte in the sources. -/
structure Parity where
  d : Nat
  p : Nat
  deriving DecidableEq, Repr

/-- `Parity::blocks()` = D + P. -/
def Parity.blocks (par : Parity) : Nat := par.d + par.p

/-- Modelled from the spec §3: one block of a blocked span —
`{block_service_id, block_id, crc}` (`BlockBody`). -/
structure BlockBody where
  blockService : Nat
  blockId : Nat
  crc : Nat
  deriving DecidableEq, Repr

/-- Modelled from the spec §3: `LocationBlocksBody` — storage class,
parity, stripe count, cell size, per-block bodies, per-stripe crcs, for
one location of a span. -/
structure LocationBlocksBody where
  location : Nat
  storageClass : Nat
  parity : Parity
  stripes : Nat
  cellSize : Nat
  blocks : List BlockBody
  stripeCrcs : List Nat
  deriving DecidableEq, Repr

/-- Modelled from the spec §3: the storage discriminant of a span:
inline bytes (EMPTY or INLINE storage) or 1..N locations of blocks. -/
inductive SpanStorage where
  | inlineStorage (body : List Nat)
  | blocked (locs : List LocationBlocksBody)
  deriving DecidableEq, Repr

/-- Modelled from the spec §3: `SpanBody` — span size, crc of the
logical content, storage discriminant. -/
structure SpanBody where
  spanSize : Nat
  crc : Nat
  storage : SpanStorage
  deriving DecidableEq, Repr

/-- `SpanBody::isInlineStorage()`. -/
def SpanBody.isInlineStorage (s : SpanBody) : Bool :=
  match s.storage with
  | .inlineStorage _ => true
  | .blocked _ => false

/-- `SpanBody::inlineBody()` (meaningful only when inline). -/
def SpanBody.inlineBody (s : SpanBody) : List Nat :=
  match s.storage with
  | .inlineStorage b => b
  | .blocked _ => []

/-- `SpanBody::locationCount()`. -/
def SpanBody.locationCount (s : SpanBody) : Nat :=
  match s.storage with
  | .inlineStorage _ => 0
  | .blocked locs => locs.length

/-! ## Key-value stores and the write batch -/

/-- A column family is an association list; `Get` returns the first
binding.  `storePut`/`storeDel` keep at most one binding per key. -/
def storeGet [DecidableEq κ] (s : List (κ × ν)) (k : κ) : Option ν :=
  (s.find? fun kv => kv.1 = k).map (·.2)

/-- `Put` semantics of the store. -/
def storePut [DecidableEq κ] (s : List (κ × ν)) (k : κ) (v : ν) : List (κ × ν) :=
  (k, v) :: s.filter fun kv => kv.1 ≠ k

/-- `Delete` semantics of the store. -/
def storeDel [DecidableEq κ] (s : List (κ × ν)) (k : κ) : List (κ × ν) :=
  s.filter fun kv => kv.1 ≠ k

/-- The per-shard persistent state: the column families of
`ShardDB::getColumnFamilyDescriptors` (ShardDB.cpp lines 145-159)
restricted to the records the embedded handlers touch.  The `default`
CF's metadata keys `LAST_APPLIED_LOG_ENTRY_KEY` and `NEXT_BLOCK_ID_KEY`
are the `lastApplied` and `nextBlockId` fields. -/
structure ShardState where
  lastApplied : Nat
  nextBlockId : Nat
  directories : List (InodeId × DirectoryBody)
  transientFiles : List (InodeId × TransientFileBody)
  files : List (InodeId × FileBody)
  spans : List ((InodeId × Nat) × SpanBody)
  currentEdges : List (CurrentEdgeKey × CurrentEdgeBody)
  snapshotEdges : List (SnapshotEdgeKey × SnapshotEdgeBody)
  blockServicesToFiles : List ((Nat × InodeId) × Int)
  deriving DecidableEq, Repr

/-- One operation recorded in a RocksDB `WriteBatch` by the embedded
handlers.  `mergeBlockServicesToFiles` is the int64-add merge operator
of the `blockServicesToFiles` CF. -/
inductive BatchOp where
  | putLastApplied (idx : Nat)
  | putNextBlockId (v : Nat)
  | putDirectory (id : InodeId) (d : DirectoryBody)
  | putTransient (id : InodeId) (f : TransientFileBody)
  | deleteTransient (id : InodeId)
  | putFile (id : InodeId) (f : FileBody)
  | putSpan (k : InodeId × Nat) (s : SpanBody)
  | putCurrentEdge (k : CurrentEdgeKey) (v : CurrentEdgeBody)
  | deleteCurrentEdge (k : CurrentEdgeKey)
  | putSnapshotEdge (k : SnapshotEdgeKey) (v : SnapshotEdgeBody)
  | mergeBlockServicesToFiles (k : Nat × InodeId) (delta : Int)
  deriving DecidableEq, Repr

/-- Effect of a single batch operation on the state. -/
def applyOp (s : ShardState) : BatchOp → ShardState
  | .putLastApplied idx => { s with lastApplied := idx }
  | .putNextBlockId v => { s with nextBlockId := v }
  | .putDirectory id d => { s with directories := storePut s.directories id d }
  | .putTransient id f => { s with transientFiles := storePut s.transientFiles id f }
  | .deleteTransient id => { s with transientFiles := storeDel s.transientFiles id }
  | .putFile id f => { s with files := storePut s.files id f }
  | .putSpan k sp => { s with spans := storePut s.spans k sp }
  | .putCurrentEdge k v => { s with currentEdges := storePut s.currentEdges k v }
  | .deleteCurrentEdge k => { s with currentEdges := storeDel s.currentEdges k }
  | .putSnapshotEdge k v => { s with snapshotEdges := storePut s.snapshotEdges k v }
  | .mergeBlockServicesToFiles k delta =>
    let old := (storeGet s.blockServicesToFiles k).getD 0
    { s with blockServicesToFiles := storePut s.blockServicesToFiles k (old + delta) }

/-- `rocksdb::DB::Write`: apply the batched operations in order. -/
def applyBatch (s : ShardState) (batch : List BatchOp) : ShardState :=
  batch.foldl applyOp s

/-! ## Integrity and hashing stand-ins -/

/-- Modelled from the spec §4.2: `cbcmac` (Crypto.hpp, not under src/)
is a deterministic 8-byte MAC of a byte string under a 128-bit key.
Executable stand-in; no claim depends on its internals. -/
def cbcmac (key : Nat) (msg : List Nat) : Nat :=
  msg.foldl (fun acc b => (acc * 16777619 + b + key) % 2 ^ 64) (key % 2 ^ 64)

/-- Modelled from the spec §4.2: the cookie of inode `id` is
`cbcmac(shard_expanded_key, id_bytes)` (`ShardDBImpl::_calcCookie`,
ShardDB.cpp lines 3992-3994); the id is serialized as its 8 raw
little-endian bytes. -/
def calcCookie (secretKey : Nat) (id : InodeId) : Nat :=
  cbcmac secretKey (natToLE 8 id.u64)

/-- Modelled from the spec §2.8 / §4: `EdgeKey::computeNameHash`
(ShardDBData.hpp, not under src/) is a deterministic 63-bit hash
(XXH3_63) of the name under the directory's hash mode.  Executable
stand-in; no claim depends on its values. -/
def computeNameHash (hashMode : Nat) (name : List Nat) : Nat :=
  name.foldl (fun acc c => (acc * 1099511628211 + c + hashMode) % 2 ^ 63)
    (14695981039346656037 % 2 ^ 63)

/-- Modelled from the spec: crc32c (crc32c.h, not under src/).
Executable stand-in; no claim depends on its values. -/
def crc32c (start : Nat) (bytes : List Nat) : Nat :=
  bytes.foldl (fun acc b => (acc * 33 + b + 1) % 2 ^ 32) (start % 2 ^ 32)

/-- Modelled from the spec §4.4: `crc32c_zero_extend` extends a crc as
if `n` zero bytes followed.  Executable stand-in. -/
def crc32cZeroExtend (c n : Nat) : Nat := (c + 2 ^ 16 * n) % 2 ^ 32

/-- Static configuration of a `ShardDBImpl` instance: shard id, the
transient-deadline interval and the shard secret key (fields `_shid`,
`_transientDeadlineInterval`, `_expandedSecretKey`). -/
structure ShardCfg where
  shid : Nat
  transientDeadlineInterval : Nat
  secretKey : Nat
  deriving DecidableEq, Repr

/-! ## Shared getters and the mtime preamble (ShardDB.cpp lines
2041-2077 and 4003-4095) -/

/-- `ShardDBImpl::_getDirectory` (ShardDB.cpp lines 4003-4019): type
check, point get, and the snapshot-directory check (owner = NULL and not
the root ⇒ treated as not found when `allowSnapshot` is false). -/
def getDirectory (s : ShardState) (id : InodeId) (allowSnapshot : Bool) :
    Except TernError DirectoryBody :=
  if id.ityp ≠ .DIRECTORY then .error .TYPE_IS_NOT_DIRECTORY
  else
    match storeGet s.directories id with
    | none => .error .DIRECTORY_NOT_FOUND
    | some dir =>
      if ¬allowSnapshot ∧ (dir.ownerId = NULL_INODE_ID ∧ id ≠ ROOT_DIR_INODE_ID) then
        .error .DIRECTORY_NOT_FOUND
      else .ok dir

/-- `ShardDBImpl::_initiateDirectoryModification` (ShardDB.cpp lines
2041-2065): fetch the directory, refuse to go backwards in time
(`mtime >= time` ⇒ `MTIME_IS_TOO_RECENT`, nothing written), otherwise
set `mtime := time` and write the directory back into the batch. -/
def initiateDirectoryModification (s : ShardState) (time : Nat) (allowSnapshot : Bool)
    (batch : List BatchOp) (dirId : InodeId) :
    Except TernError DirectoryBody × List BatchOp :=
  match getDirectory s dirId allowSnapshot with
  | .error e => (.error e, batch)
  | .ok dir =>
    if dir.mtime ≥ time then (.error .MTIME_IS_TOO_RECENT, batch)
    else
      let dir' := { dir with mtime := time }
      (.ok dir', batch ++ [.putDirectory dirId dir'])

/-- `ShardDBImpl::_initiateDirectoryModificationAndHash` (ShardDB.cpp
lines 2068-2077): the preamble plus the name hash under the directory's
hash mode. -/
def initiateDirectoryModificationAndHash (s : ShardState) (time : Nat)
    (allowSnapshot : Bool) (batch : List BatchOp) (dirId : InodeId) (name : List Nat) :
    Except TernError Nat × List BatchOp :=
  match initiateDirectoryModification s time allowSnapshot batch dirId with
  | (.error e, batch') => (.error e, batch')
  | (.ok dir, batch') => (.ok (computeNameHash dir.hashMode name), batch')

/-- `ShardDBImpl::_getTransientFile` (ShardDB.cpp lines 4046-4064): type
check, point get in the `transient` CF, and unless `allowPastDeadline`
the file is treated as not found when the log-entry time is past its
deadline. -/
def getTransientFile (s : ShardState) (time : Nat) (allowPastDeadline : Bool)
    (id : InodeId) : Except TernError TransientFileBody :=
  if id.ityp ≠ .FILE ∧ id.ityp ≠ .SYMLINK then .error .TYPE_IS_DIRECTORY
  else
    match storeGet s.transientFiles id with
    | none => .error .FILE_NOT_FOUND
    | some f =>
      if ¬allowPastDeadline ∧ time > f.deadline then .error .FILE_NOT_FOUND
      else .ok f

/-- `ShardDBImpl::_initiateTransientFileModification` (ShardDB.cpp lines
4066-4095): fetch the transient file, refuse `mtime >= time`
(`MTIME_IS_TOO_RECENT`, nothing written), otherwise set `mtime := time`,
bump the deadline to `time + transient_deadline_interval` (unless
`allowPastDeadline`), and write the record into the batch. -/
def initiateTransientFileModification (cfg : ShardCfg) (s : ShardState) (time : Nat)
    (allowPastDeadline : Bool) (batch : List BatchOp) (id : InodeId) :
    Except TernError TransientFileBody × List BatchOp :=
  match getTransientFile s time allowPastDeadline id with
  | .error e => (.error e, batch)
  | .ok f =>
    if f.mtime ≥ time then (.error .MTIME_IS_TOO_RECENT, batch)
    else
      let f' := { f with
        mtime := time
        deadline := if ¬allowPastDeadline then time + cfg.transientDeadlineInterval
                    else f.deadline }
      (.ok f', batch ++ [.putTransient id f'])

/-! ## Edge creation and soft unlink (ShardDB.cpp lines 2084-2334) -/

/-- The `SeekForPrev` scan of `_createCurrentEdge` (ShardDB.cpp lines
2117-2133): the creation time of the most recent snapshot edge with the
given `(dir, hash, name)`, if any.  The key encoding placing
`creation_time` last within a name makes the seek land on the largest
creation time; the encoding itself lives in ShardDBData.hpp (not under
src/). -/
def latestSnapshotTime (s : ShardState) (dirId : InodeId) (nameHash : Nat)
    (name : List Nat) : Option Nat :=
  (s.snapshotEdges.filterMap fun kv =>
    if kv.1.dirId = dirId ∧ kv.1.nameHash = nameHash ∧ kv.1.name = name then
      some kv.1.creationTime
    else none).max?

/-- `ShardDBImpl::_createCurrentEdge` (ShardDB.cpp lines 2084-2192).
Returns `none` for the `ALWAYS_ASSERT(locked || oldCreationTime == 0)`
abort; otherwise the typed result carries the creation time of the edge
that ends up current (the log-entry time, or the existing one in the
locked idempotent case). -/
def createCurrentEdge (s : ShardState) (logEntryTime : Nat) (batch : List BatchOp)
    (dirId : InodeId) (name : List Nat) (targetId : InodeId)
    (locked : Bool) (oldCreationTime : Nat) :
    Option (Except TernError Nat × List BatchOp) :=
  if ¬(locked ∨ oldCreationTime = 0) then none
  else
    -- allowSnapshot=false: no current edges in snapshot directories
    match initiateDirectoryModificationAndHash s logEntryTime false batch dirId name with
    | (.error e, batch') => some (.error e, batch')
    | (.ok nameHash, batch') =>
      let edgeKey : CurrentEdgeKey := ⟨dirId, nameHash, name⟩
      match storeGet s.currentEdges edgeKey with
      | none =>
        -- first one here: check for a more recent snapshot edge
        let recent : Bool :=
          match latestSnapshotTime s dirId nameHash name with
          | some t => decide (t ≥ logEntryTime)
          | none => false
        if recent then some (.error .MORE_RECENT_SNAPSHOT_EDGE, batch')
        else
          some (.ok logEntryTime,
            batch' ++ [.putCurrentEdge edgeKey ⟨0, targetId, locked, logEntryTime⟩])
      | some existingEdge =>
        if existingEdge.locked then
          -- idempotency path for locked edges
          if ¬locked then some (.error .NAME_IS_LOCKED, batch')
          else if existingEdge.targetId ≠ targetId then
            some (.error .MISMATCHING_TARGET, batch')
          else if existingEdge.creationTime ≠ oldCreationTime then
            some (.error .MISMATCHING_CREATION_TIME, batch')
          else
            -- the new creation time does not budge
            some (.ok existingEdge.creationTime,
              batch' ++ [.putCurrentEdge edgeKey
                ⟨0, targetId, locked, existingEdge.creationTime⟩])
        else
          -- kicking out a non-locked current edge (file-over-file override)
          if existingEdge.creationTime ≥ logEntryTime then
            some (.error .MORE_RECENT_CURRENT_EDGE, batch')
          else if targetId.ityp = .DIRECTORY ∨ existingEdge.targetId.ityp = .DIRECTORY then
            some (.error .CANNOT_OVERRIDE_NAME, batch')
          else
            some (.ok logEntryTime,
              batch' ++
                [.putSnapshotEdge ⟨dirId, nameHash, name, existingEdge.creationTime⟩
                  ⟨0, existingEdge.targetId, true⟩,
                 .putCurrentEdge edgeKey ⟨0, targetId, locked, logEntryTime⟩])

/-- `ShardDBImpl::_softUnlinkCurrentEdge` (ShardDB.cpp lines 2271-2327):
the creation time of the deletion marker is always the log-entry time. -/
def softUnlinkCurrentEdge (s : ShardState) (time : Nat) (batch : List BatchOp)
    (dirId : InodeId) (name : List Nat) (creationTime : Nat) (targetId : InodeId)
    (owned : Bool) : Except TernError Unit × List BatchOp :=
  -- allowSnapshot=false: no current edges in snapshot directories
  match initiateDirectoryModificationAndHash s time false batch dirId name with
  | (.error e, batch') => (.error e, batch')
  | (.ok nameHash, batch') =>
    let edgeKey : CurrentEdgeKey := ⟨dirId, nameHash, name⟩
    match storeGet s.currentEdges edgeKey with
    | none => (.error .EDGE_NOT_FOUND, batch')
    | some edgeBody =>
      if edgeBody.targetId ≠ targetId then (.error .MISMATCHING_TARGET, batch')
      else if edgeBody.creationTime ≠ creationTime then
        (.error .MISMATCHING_CREATION_TIME, batch')
      else if edgeBody.locked then (.error .EDGE_IS_LOCKED, batch')
      else
        (.ok (),
          batch' ++
            [.deleteCurrentEdge edgeKey,
             .putSnapshotEdge ⟨dirId, nameHash, name, edgeBody.creationTime⟩
               ⟨0, targetId, owned⟩,
             .putSnapshotEdge ⟨dirId, nameHash, name, time⟩
               ⟨0, NULL_INODE_ID, false⟩])

/-- `SoftUnlinkFileEntry` (log-entry body of `SOFT_UNLINK_FILE`). -/
structure SoftUnlinkFileEntry where
  ownerId : InodeId
  fileId : InodeId
  name : List Nat
  creationTime : Nat
  deriving DecidableEq, Repr

/-- `ShardDBImpl::_applySoftUnlinkFile` (ShardDB.cpp lines 2329-2334):
soft-unlink with `owned = true`; the response carries the deletion
marker's creation time. -/
def applySoftUnlinkFile (s : ShardState) (time : Nat) (batch : List BatchOp)
    (entry : SoftUnlinkFileEntry) : Except TernError Nat × List BatchOp :=
  match softUnlinkCurrentEdge s time batch entry.ownerId entry.name
      entry.creationTime entry.fileId true with
  | (.error e, batch') => (.error e, batch')
  | (.ok _, batch') => (.ok time, batch')

/-! ## Span lifecycle (ShardDB.cpp lines 2873-3215) -/

/-- `AddInlineSpanEntry` (log-entry body of `ADD_INLINE_SPAN`). -/
structure AddInlineSpanEntry where
  fileId : InodeId
  storageClass : Nat
  byteOffset : Nat
  size : Nat
  crc : Nat
  body : List Nat
  deriving DecidableEq, Repr

/-- `ShardDBImpl::_applyAddInlineSpan` (ShardDB.cpp lines 2916-2992). -/
def applyAddInlineSpan (cfg : ShardCfg) (s : ShardState) (time : Nat)
    (batch : List BatchOp) (entry : AddInlineSpanEntry) :
    Except TernError Unit × List BatchOp :=
  match initiateTransientFileModification cfg s time false batch entry.fileId with
  | (.error e, batch') => (.error e, batch')
  | (.ok file, batch') =>
    -- special case: for empty spans we have nothing to do
    if entry.body.length = 0 then (.ok (), batch')
    else
      let spanKey : InodeId × Nat := (entry.fileId, entry.byteOffset)
      if file.fileSize ≠ entry.byteOffset then
        -- idempotent retry: the same span may already be there
        if file.fileSize = entry.byteOffset + entry.size then
          match storeGet s.spans spanKey with
          | none => (.error .SPAN_NOT_FOUND, batch')
          | some existingSpan =>
            if existingSpan.spanSize ≠ entry.size ∨
                ¬existingSpan.isInlineStorage ∨
                existingSpan.crc ≠ entry.crc ∨
                existingSpan.inlineBody ≠ entry.body then
              (.error .SPAN_NOT_FOUND, batch')
            else (.ok (), batch')
        else (.error .SPAN_NOT_FOUND, batch')
      else if file.lastSpanState ≠ .CLEAN then
        (.error .LAST_SPAN_STATE_NOT_CLEAN, batch')
      else
        -- no need to set the state to dirty since it's inline
        let file' := { file with fileSize := entry.byteOffset + entry.size }
        let spanBody : SpanBody := ⟨entry.size, entry.crc, .inlineStorage entry.body⟩
        (.ok (),
          batch' ++ [.putTransient entry.fileId file', .putSpan spanKey spanBody])

/-- One element of `AddSpanAtLocationInitiateEntry::bodyBlocks`: the
block service chosen during prepare and the block's crc. -/
structure EntryBlock where
  blockServiceId : Nat
  crc : Nat
  deriving DecidableEq, Repr

/-- `AddSpanAtLocationInitiateEntry` (log-entry body of
`ADD_SPAN_AT_LOCATION_INITIATE`; `ADD_SPAN_INITIATE` is converted to it
with `locationId = DEFAULT_LOCATION` in `applyLogEntry`). -/
structure AddSpanAtLocationInitiateEntry where
  locationId : Nat
  withReference : Bool
  fileId : InodeId
  byteOffset : Nat
  size : Nat
  crc : Nat
  storageClass : Nat
  parity : Parity
  stripes : Nat
  cellSize : Nat
  bodyBlocks : List EntryBlock
  bodyStripes : List Nat
  deriving DecidableEq, Repr

/-- One element of `AddSpanInitiateResp::blocks` as far as the state
machine determines it: the chosen block service and the allocated block
id.  The response additionally carries the service's addresses, failure
domain and a write certificate, all derived from the external
block-services cache (out of scope, spec §1). -/
structure RespBlock where
  blockServiceId : Nat
  blockId : Nat
  deriving DecidableEq, Repr

/-- `ShardDBImpl::_fillInAddSpanInitiate` (ShardDB.cpp lines 2891-2904)
restricted to the state-determined fields. -/
def fillInAddSpanInitiate (blocks : LocationBlocksBody) : List RespBlock :=
  (blocks.blocks.take blocks.parity.blocks).map fun b => ⟨b.blockService, b.blockId⟩

/-- `ShardDBImpl::_updateNextBlockId` (ShardDB.cpp lines 2879-2883):
`max(nextBlockId + 0x100, shard | (time & ~0xFF))` — the log-entry time
with its low byte replaced by the shard id. -/
def updateNextBlockId (cfg : ShardCfg) (time nextBlockId : Nat) : Nat :=
  max (nextBlockId + 256) (time / 256 * 256 + cfg.shid)

/-- The allocation loop of `_applyAddSpanInitiate` (ShardDB.cpp lines
3070-3078): each block of the entry gets the next fresh block id; the
final counter value is written once after the loop. -/
def allocBlocks (cfg : ShardCfg) (time : Nat) :
    List EntryBlock → Nat → List BlockBody × Nat
  | [], nbi => ([], nbi)
  | eb :: rest, nbi =>
    let nbi' := updateNextBlockId cfg time nbi
    let (bs, nbi'') := allocBlocks cfg time rest nbi'
    (⟨eb.blockServiceId, nbi', eb.crc⟩ :: bs, nbi'')

/-- `ShardDBImpl::_applyAddSpanInitiate` (ShardDB.cpp lines 2994-3090).
The typed result carries the response blocks
(`AddSpanInitiateResp::blocks`). -/
def applyAddSpanInitiate (cfg : ShardCfg) (s : ShardState) (time : Nat)
    (batch : List BatchOp) (entry : AddSpanAtLocationInitiateEntry) :
    Except TernError (List RespBlock) × List BatchOp :=
  match initiateTransientFileModification cfg s time false batch entry.fileId with
  | (.error e, batch') => (.error e, batch')
  | (.ok file, batch') =>
    let spanKey : InodeId × Nat := (entry.fileId, entry.byteOffset)
    if file.fileSize ≠ entry.byteOffset then
      -- idempotent retry: return the previously chosen blocks unchanged
      if file.fileSize = entry.byteOffset + entry.size then
        match storeGet s.spans spanKey with
        | none => (.error .SPAN_NOT_FOUND, batch')
        | some existingSpan =>
          match existingSpan.storage with
          | .inlineStorage _ => (.error .SPAN_NOT_FOUND, batch')
          | .blocked locs =>
            match locs with
            | [loc] =>
              if existingSpan.spanSize ≠ entry.size ∨
                  existingSpan.crc ≠ entry.crc ∨
                  loc.cellSize ≠ entry.cellSize ∨
                  loc.stripes ≠ entry.stripes ∨
                  loc.parity ≠ entry.parity ∨
                  loc.location ≠ entry.locationId then
                (.error .SPAN_NOT_FOUND, batch')
              else (.ok (fillInAddSpanInitiate loc), batch')
            | _ => (.error .SPAN_NOT_FOUND, batch')
      else (.error .SPAN_NOT_FOUND, batch')
    else if file.lastSpanState ≠ .CLEAN then
      (.error .LAST_SPAN_STATE_NOT_CLEAN, batch')
    else
      let file' := { file with
        fileSize := entry.byteOffset + entry.size
        lastSpanState := .DIRTY }
      let (blocks, nbi) :=
        allocBlocks cfg time (entry.bodyBlocks.take entry.parity.blocks) s.nextBlockId
      let loc : LocationBlocksBody :=
        ⟨entry.locationId, entry.storageClass, entry.parity, entry.stripes,
         entry.cellSize, blocks, entry.bodyStripes.take entry.stripes⟩
      let spanBody : SpanBody := ⟨entry.size, entry.crc, .blocked [loc]⟩
      (.ok (fillInAddSpanInitiate loc),
        batch' ++ [.putTransient entry.fileId file']
          ++ (blocks.map fun b =>
                .mergeBlockServicesToFiles (b.blockService, entry.fileId) 1)
          ++ [.putNextBlockId nbi, .putSpan spanKey spanBody])

/-- A client block-add proof (`BlockProof`): the block id and the 8-byte
MAC returned by the block service. -/
structure BlockProof where
  blockId : Nat
  proof : Nat
  deriving DecidableEq, Repr

/-- `ShardDBImpl::_checkBlockAddProof` (ShardDB.cpp lines 3106-3119):
the expected proof is the CBC-MAC, under the block service's secret key
(from the external cache, modelled as `bsKeys`), of the 32-byte
zero-padded packing of `(u64 block_service_id, 'W', u64 block_id)`. -/
def checkBlockAddProof (bsKeys : Nat → Nat) (blockServiceId : Nat)
    (proof : BlockProof) : Bool :=
  let msg := packScalar 8 blockServiceId ++ packScalar 1 87 ++ packScalar 8 proof.blockId
  proof.proof = cbcmac (bsKeys blockServiceId) (msg ++ List.replicate 15 0)

/-- `AddSpanCertifyEntry` (log-entry body of `ADD_SPAN_CERTIFY`). -/
structure AddSpanCertifyEntry where
  fileId : InodeId
  byteOffset : Nat
  proofs : List BlockProof
  deriving DecidableEq, Repr

/-- `ShardDBImpl::_applyAddSpanCertify` (ShardDB.cpp lines 3152-3215).
`none` models the `ALWAYS_ASSERT(span().locationCount() == 1)` abort;
the `ALWAYS_ASSERT(lastSpanState == DIRTY)` is vacuous after the CLEAN
and CONDEMNED branches. -/
def applyAddSpanCertify (cfg : ShardCfg) (bsKeys : Nat → Nat) (s : ShardState)
    (time : Nat) (batch : List BatchOp) (entry : AddSpanCertifyEntry) :
    Option (Except TernError Unit × List BatchOp) :=
  match initiateTransientFileModification cfg s time false batch entry.fileId with
  | (.error e, batch') => some (.error e, batch')
  | (.ok file, batch') =>
    match storeGet s.spans (entry.fileId, entry.byteOffset) with
    | none => some (.error .SPAN_NOT_FOUND, batch')
    | some span =>
      if file.fileSize > entry.byteOffset + span.spanSize then
        some (.ok (), batch')  -- already certified (we're past it)
      else if file.lastSpanState = .CLEAN then
        some (.ok (), batch')  -- already certified
      else if file.lastSpanState = .CONDEMNED then
        some (.error .SPAN_NOT_FOUND, batch')
      else
        match span.storage with
        | .inlineStorage _ => some (.error .CANNOT_CERTIFY_BLOCKLESS_SPAN, batch')
        | .blocked locs =>
          match locs with
          | [loc] =>
            if loc.parity.blocks ≠ entry.proofs.length then
              some (.error .BAD_NUMBER_OF_BLOCKS_PROOFS, batch')
            else if ¬((loc.blocks.take loc.parity.blocks).zip entry.proofs).all
                (fun bp => checkBlockAddProof bsKeys bp.1.blockService bp.2) then
              some (.error .BAD_BLOCK_PROOF, batch')
            else
              some (.ok (),
                batch' ++ [.putTransient entry.fileId
                  { file with lastSpanState := .CLEAN }])
          | _ => none

/-! ## Prepare path (ShardDB.cpp lines 1085-1184 and 1381-1430) -/

/-- `ShardDBImpl::_checkTransientFileCookie` (ShardDB.cpp lines
1085-1094). -/
def checkTransientFileCookie (cfg : ShardCfg) (id : InodeId) (cookie : Nat) :
    TernError :=
  if id.ityp ≠ .FILE ∧ id.ityp ≠ .SYMLINK then .TYPE_IS_DIRECTORY
  else if cookie ≠ calcCookie cfg.secretKey id then .BAD_COOKIE
  else .NO_ERROR

/-- `LinkFileReq`. -/
structure LinkFileReq where
  fileId : InodeId
  cookie : Nat
  ownerId : InodeId
  name : List Nat
  deriving DecidableEq, Repr

/-- `LinkFileEntry` (log-entry body of `LINK_FILE`). -/
structure LinkFileEntry where
  fileId : InodeId
  ownerId : InodeId
  name : List Nat
  deriving DecidableEq, Repr

/-- `ShardDBImpl::_prepareLinkFile` (ShardDB.cpp lines 1096-1114):
owner must be a directory, owner and file must be on this shard, the
cookie must verify; the name is copied into the entry verbatim. -/
def prepareLinkFile (cfg : ShardCfg) (req : LinkFileReq) :
    Except TernError LinkFileEntry :=
  if req.ownerId.ityp ≠ .DIRECTORY then .error .TYPE_IS_NOT_DIRECTORY
  else if req.ownerId.shard ≠ cfg.shid ∨ req.fileId.shard ≠ cfg.shid then
    .error .BAD_SHARD
  else
    let ck := checkTransientFileCookie cfg req.fileId req.cookie
    if ck ≠ .NO_ERROR then .error ck
    else .ok ⟨req.fileId, req.ownerId, req.name⟩

/-- `SameDirectoryRenameReq` (also used by the snapshot variant). -/
structure SameDirectoryRenameReq where
  dirId : InodeId
  targetId : InodeId
  oldName : List Nat
  oldCreationTime : Nat
  newName : List Nat
  deriving DecidableEq, Repr

/-- `SameDirectoryRenameEntry` (log-entry body of
`SAME_DIRECTORY_RENAME`). -/
structure SameDirectoryRenameEntry where
  dirId : InodeId
  targetId : InodeId
  oldName : List Nat
  oldCreationTime : Nat
  newName : List Nat
  deriving DecidableEq, Repr

/-- `ShardDBImpl::_prepareSameDirectoryRename` (ShardDB.cpp lines
1116-1136), with `dontAllowDifferentNames` standing for the
`DontAllowDifferentNames` template argument (`true` for
`SAME_DIRECTORY_RENAME`): only the NEW name is validated. -/
def prepareSameDirectoryRename (cfg : ShardCfg) (dontAllowDifferentNames : Bool)
    (req : SameDirectoryRenameReq) : Except TernError SameDirectoryRenameEntry :=
  if req.dirId.ityp ≠ .DIRECTORY then .error .TYPE_IS_NOT_DIRECTORY
  else if dontAllowDifferentNames ∧ req.oldName = req.newName then
    .error .SAME_SOURCE_AND_DESTINATION
  else if ¬validName req.newName then .error .BAD_NAME
  else if req.dirId.shard ≠ cfg.shid then .error .BAD_SHARD
  else .ok ⟨req.dirId, req.targetId, req.oldName, req.oldCreationTime, req.newName⟩

/-- `CreateLockedCurrentEdgeReq`. -/
structure CreateLockedCurrentEdgeReq where
  dirId : InodeId
  targetId : InodeId
  name : List Nat
  oldCreationTime : Nat
  deriving DecidableEq, Repr

/-- `CreateLockedCurrentEdgeEntry` (log-entry body of
`CREATE_LOCKED_CURRENT_EDGE`). -/
structure CreateLockedCurrentEdgeEntry where
  dirId : InodeId
  targetId : InodeId
  name : List Nat
  oldCreationTime : Nat
  deriving DecidableEq, Repr

/-- `ShardDBImpl::_prepareCreateLockedCurrentEdge` (ShardDB.cpp lines
1168-1184); `none` models the `ALWAYS_ASSERT(req.targetId !=
NULL_INODE_ID)` abort, which sits after the name check. -/
def prepareCreateLockedCurrentEdge (cfg : ShardCfg)
    (req : CreateLockedCurrentEdgeReq) :
    Option (Except TernError CreateLockedCurrentEdgeEntry) :=
  if req.dirId.ityp ≠ .DIRECTORY then some (.error .TYPE_IS_NOT_DIRECTORY)
  else if req.dirId.shard ≠ cfg.shid then some (.error .BAD_SHARD)
  else if ¬validName req.name then some (.error .BAD_NAME)
  else if req.targetId = NULL_INODE_ID then none
  else some (.ok ⟨req.dirId, req.targetId, req.name, req.oldCreationTime⟩)

/-- Modelled from the spec §6.5: storage-class constants.  Only EMPTY
and INLINE are distinguished by the inline-span handlers. -/
def EMPTY_STORAGE : Nat := 0

/-- Modelled from the spec §6.5 (see `EMPTY_STORAGE`). -/
def INLINE_STORAGE : Nat := 1

/-- `TERNFS_PAGE_SIZE` (ShardDB.cpp line 96). -/
def TERNFS_PAGE_SIZE : Nat := 4096

/-- `AddInlineSpanReq`. -/
structure AddInlineSpanReq where
  fileId : InodeId
  cookie : Nat
  storageClass : Nat
  byteOffset : Nat
  size : Nat
  crc : Nat
  body : List Nat
  deriving DecidableEq, Repr

/-- `ShardDBImpl::_prepareAddInlineSpan` (ShardDB.cpp lines 1381-1430):
for INLINE storage only `size != 0 && size >= body.size()` is required
of the size — an empty body with a nonzero declared size passes, as
long as the crc matches the zero-extended crc of the body. -/
def prepareAddInlineSpan (cfg : ShardCfg) (req : AddInlineSpanReq) :
    Except TernError AddInlineSpanEntry :=
  if req.fileId.ityp ≠ .FILE ∧ req.fileId.ityp ≠ .SYMLINK then
    .error .TYPE_IS_DIRECTORY
  else if req.fileId.shard ≠ cfg.shid then .error .BAD_SHARD
  else
    let ck := checkTransientFileCookie cfg req.fileId req.cookie
    if ck ≠ .NO_ERROR then .error ck
    else if req.storageClass = EMPTY_STORAGE then
      if req.size ≠ 0 then .error .BAD_SPAN_BODY
      else prepareAddInlineSpanTail req
    else if req.storageClass = INLINE_STORAGE then
      if req.size = 0 ∨ req.size < req.body.length then .error .BAD_SPAN_BODY
      else prepareAddInlineSpanTail req
    else .error .BAD_SPAN_BODY
where
  /-- Page-alignment and crc validation shared by the storage-class
  branches (ShardDB.cpp lines 1410-1429). -/
  prepareAddInlineSpanTail (req : AddInlineSpanReq) :
      Except TernError AddInlineSpanEntry :=
    if req.byteOffset % TERNFS_PAGE_SIZE ≠ 0 then .error .BAD_SPAN_BODY
    else
      let expectedCrc := crc32cZeroExtend (crc32c 0 req.body) (req.size - req.body.length)
      if expectedCrc ≠ req.crc then .error .BAD_SPAN_BODY
      else .ok ⟨req.fileId, req.storageClass, req.byteOffset, req.size, req.crc, req.body⟩

/-! ## `ReadDir` (ShardDB.cpp lines 113-117 and 355-405) -/

/-- `pickMtu` (ShardDB.cpp lines 113-117): 0 means the default UDP MTU;
the result is clipped to `MAX_UDP_MTU`. -/
def pickMtu (mtu : Nat) : Nat :=
  min 8972 (if mtu = 0 then 1472 else mtu)

/-- One element of `ReadDirResp::results` (`CurrentEdge`): target id,
name hash, name, creation time. -/
structure RespEdge where
  targetId : InodeId
  nameHash : Nat
  name : List Nat
  creationTime : Nat
  deriving DecidableEq, Repr

/-- Modelled from the spec §2.1: `CurrentEdge::packedSize` — two `u64`s,
the length-prefixed name, and a `u64` creation time. -/
def RespEdge.packedSize (e : RespEdge) : Nat := 8 + 8 + (1 + e.name.length) + 8

/-- Modelled from the spec §6.1: the static size of the response header
(`ShardRespMsg::STATIC_SIZE`): protocol version, request id, kind. -/
def SHARD_RESP_STATIC_SIZE : Nat := 13

/-- Modelled from the spec: `ReadDirResp::STATIC_SIZE` — the `nextHash`
cursor and the list length prefix. -/
def READ_DIR_RESP_STATIC_SIZE : Nat := 10

/-- The response element built from a stored current edge (ShardDB.cpp
lines 386-390). -/
def toRespEdge (kv : CurrentEdgeKey × CurrentEdgeBody) : RespEdge :=
  ⟨kv.2.targetId, kv.1.nameHash, kv.1.name, kv.2.creationTime⟩

/-- The iteration of `_readDir` (ShardDB.cpp lines 382-400) over the
current edges at and after the seek point, in key order.  Each edge is
appended and the budget decremented; when the budget drops below zero
the overflowing element and every already-appended trailing element
sharing its name hash are removed (`pop_back` loop, lines 395-397) and
its hash is returned as the continuation cursor (`some`).  The
recursion returns, for each visited suffix, the kept elements and the
cursor; an element `e` is popped exactly when everything after it was
popped and its hash equals the cursor hash, which reproduces the
tail-popping of the imperative loop. -/
def readDirLoop (budget : Int) :
    List (CurrentEdgeKey × CurrentEdgeBody) → List RespEdge × Option Nat
  | [] => ([], none)
  | kv :: rest =>
    let re := toRespEdge kv
    let budget' := budget - re.packedSize
    if budget' < 0 then ([], some kv.1.nameHash)
    else
      match readDirLoop budget' rest with
      | (res, none) => (re :: res, none)
      | (res, some h) =>
        if res = [] ∧ re.nameHash = h then ([], some h)
        else (re :: res, some h)

/-- `ReadDirResp`: the returned page and the continuation cursor
(`nextHash`, 0 when the listing is complete). -/
structure ReadDirResp where
  results : List RespEdge
  nextHash : Nat
  deriving DecidableEq, Repr

/-- `ShardDBImpl::_readDir` (ShardDB.cpp lines 355-405), taking as input
the current edges of the requested directory in key order (the
iterator's view between the seek key and the upper bound): seek to the
first key with `nameHash ≥ startHash`, then run the budgeted loop. -/
def readDir (edges : List (CurrentEdgeKey × CurrentEdgeBody))
    (startHash : Nat) (mtu : Nat) : ReadDirResp :=
  let budget : Int :=
    (pickMtu mtu : Int) - SHARD_RESP_STATIC_SIZE - READ_DIR_RESP_STATIC_SIZE
  let run := edges.dropWhile fun kv => kv.1.nameHash < startHash
  match readDirLoop budget run with
  | (res, none) => ⟨res, 0⟩
  | (res, some h) => ⟨res, h⟩

/-! ## Log application (ShardDB.cpp lines 1933-1940, 2194-2210,
2373-2379 and 3826-3987) -/

/-- `ShardDBImpl::_applySameDirectoryRename` (ShardDB.cpp lines
2194-2210): soft-unlink the old edge (not owned any more, since it is
being renamed), then create the new one. -/
def applySameDirectoryRename (s : ShardState) (time : Nat) (batch : List BatchOp)
    (entry : SameDirectoryRenameEntry) :
    Option (Except TernError Nat × List BatchOp) :=
  match softUnlinkCurrentEdge s time batch entry.dirId entry.oldName
      entry.oldCreationTime entry.targetId false with
  | (.error e, batch') => some (.error e, batch')
  | (.ok _, batch') =>
    createCurrentEdge s time batch' entry.dirId entry.newName entry.targetId false 0

/-- `ShardDBImpl::_applyCreateLockedCurrentEdge` (ShardDB.cpp lines
2373-2379): `_createCurrentEdge` with `locked = true`. -/
def applyCreateLockedCurrentEdge (s : ShardState) (time : Nat)
    (batch : List BatchOp) (entry : CreateLockedCurrentEdgeEntry) :
    Option (Except TernError Nat × List BatchOp) :=
  createCurrentEdge s time batch entry.dirId entry.name entry.targetId true
    entry.oldCreationTime

/-- The log-entry bodies covered by the embedding (a subset of
`ShardLogEntryKind`). -/
inductive LogEntryBody where
  | softUnlinkFile (e : SoftUnlinkFileEntry)
  | sameDirectoryRename (e : SameDirectoryRenameEntry)
  | createLockedCurrentEdge (e : CreateLockedCurrentEdgeEntry)
  | addInlineSpan (e : AddInlineSpanEntry)
  | addSpanAtLocationInitiate (e : AddSpanAtLocationInitiateEntry)
  | addSpanCertify (e : AddSpanCertifyEntry)
  deriving DecidableEq, Repr

/-- The error code a handler's outcome puts into the response (`resp.setError()`
on failure, the handler's own response otherwise). -/
def errOf : Except TernError α → TernError
  | .ok _ => .NO_ERROR
  | .error e => e

/-- The `switch (logEntryBody.kind())` dispatch of
`ShardDBImpl::applyLogEntry` (ShardDB.cpp lines 3851-3976) over the
embedded kinds; the per-kind responses are dropped, only the error code
and the batch matter to the state.  `none` models a process abort
inside a handler. -/
def applyLogEntryBody (cfg : ShardCfg) (bsKeys : Nat → Nat) (s : ShardState)
    (time : Nat) (batch : List BatchOp) :
    LogEntryBody → Option (TernError × List BatchOp)
  | .softUnlinkFile e =>
    let (r, b) := applySoftUnlinkFile s time batch e
    some (errOf r, b)
  | .sameDirectoryRename e =>
    match applySameDirectoryRename s time batch e with
    | none => none
    | some (r, b) => some (errOf r, b)
  | .createLockedCurrentEdge e =>
    match applyCreateLockedCurrentEdge s time batch e with
    | none => none
    | some (r, b) => some (errOf r, b)
  | .addInlineSpan e =>
    let (r, b) := applyAddInlineSpan cfg s time batch e
    some (errOf r, b)
  | .addSpanAtLocationInitiate e =>
    let (r, b) := applyAddSpanInitiate cfg s time batch e
    some (errOf r, b)
  | .addSpanCertify e =>
    match applyAddSpanCertify cfg bsKeys s time batch e with
    | none => none
    | some (r, b) => some (errOf r, b)

/-- `ShardDBImpl::applyLogEntry` (ShardDB.cpp lines 3826-3987) together
with `_advanceLastAppliedLogEntry` (lines 1933-1940): assert the index
is contiguous (`none` on the `ALWAYS_ASSERT(oldIndex+1 == index)`
abort), put the index advance into the batch, set the savepoint, run
the per-kind handler, roll the batch back to the savepoint on a typed
error, and write the batch. -/
def applyLogEntry (cfg : ShardCfg) (bsKeys : Nat → Nat) (s : ShardState)
    (logIndex : Nat) (time : Nat) (body : LogEntryBody) :
    Option (TernError × ShardState) :=
  if s.lastApplied + 1 ≠ logIndex then none
  else
    let batch : List BatchOp := [.putLastApplied logIndex]
    let savepoint := batch.length
    match applyLogEntryBody cfg bsKeys s time batch body with
    | none => none
    | some (err, batch') =>
      let finalBatch := if err ≠ .NO_ERROR then batch'.take savepoint else batch'
      some (err, applyBatch s finalBatch)

/-! ## Concrete fixtures used by witnesses and counterexamples -/

/-- A shard-0 configuration. -/
def cfg0 : ShardCfg := ⟨0, 3600, 42⟩

/-- A directory body for the root directory: mtime 10, XXH3 hash mode,
no owner (legal for the root). -/
def sampleDir : DirectoryBody := ⟨0, NULL_INODE_ID, 10, 0, []⟩

/-- A clean transient file with mtime 10 and a far deadline. -/
def sampleTransientFile : TransientFileBody := ⟨0, 0, 10, 1000000, .CLEAN, []⟩

/-- A FILE-typed inode id on shard 0. -/
def fileId1 : InodeId := ⟨256⟩

/-- A small shard state holding the root directory and one transient
file. -/
def sampleState : ShardState :=
  ⟨5, 0, [(ROOT_DIR_INODE_ID, sampleDir)], [(fileId1, sampleTransientFile)],
   [], [], [], [], []⟩

/-! ## Store lemmas -/

theorem find?_filter_ne [DecidableEq κ] (s : List (κ × ν)) (k k' : κ) (h : k' ≠ k) :
    ((s.filter fun kv => kv.1 ≠ k).find? fun kv => kv.1 = k')
      = s.find? fun kv => kv.1 = k' := by
  induction s with
  | nil => rfl
  | cons a l ih =>
    by_cases hak : a.1 = k
    · have ha' : a.1 ≠ k' := by rw [hak]; exact fun hh => h hh.symm
      rw [List.filter_cons_of_neg (by simp [hak]), List.find?_cons_of_neg _ (by simp [ha']),
        ih]
    · by_cases ha : a.1 = k'
      · rw [List.filter_cons_of_pos (by simp [hak]), List.find?_cons_of_pos _ (by simp [ha]),
          List.find?_cons_of_pos _ (by simp [ha])]
      · rw [List.filter_cons_of_pos (by simp [hak]), List.find?_cons_of_neg _ (by simp [ha]),
          List.find?_cons_of_neg _ (by simp [ha]), ih]

theorem storeGet_put_self [DecidableEq κ] (s : List (κ × ν)) (k : κ) (v : ν) :
    storeGet (storePut s k v) k = some v := by
  unfold storeGet storePut
  rw [List.find?_cons_of_pos _ (by simp)]
  rfl

theorem storeGet_put_other [DecidableEq κ] (s : List (κ × ν)) (k k' : κ) (v : ν)
    (h : k' ≠ k) : storeGet (storePut s k v) k' = storeGet s k' := by
  unfold storeGet storePut
  rw [List.find?_cons_of_neg _ (by simpa using Ne.symm h), find?_filter_ne s k k' h]

theorem storeGet_del_self [DecidableEq κ] (s : List (κ × ν)) (k : κ) :
    storeGet (storeDel s k) k = none := by
  unfold storeGet storeDel
  induction s with
  | nil => rfl
  | cons a l ih =>
    by_cases hak : a.1 = k
    · rw [List.filter_cons_of_neg (by simp [hak])]
      exact ih
    · rw [List.filter_cons_of_pos (by simp [hak]), List.find?_cons_of_neg _ (by simp [hak])]
      exact ih

theorem storeGet_del_other [DecidableEq κ] (s : List (κ × ν)) (k k' : κ)
    (h : k' ≠ k) : storeGet (storeDel s k) k' = storeGet s k' := by
  unfold storeGet storeDel
  rw [find?_filter_ne s k k' h]

/-! ## Helper lemmas about the mtime preambles -/

theorem initiateDir_error {s dirId allowSnapshot e} (time : Nat) (batch : List BatchOp)
    (h : getDirectory s dirId allowSnapshot = .error e) :
    initiateDirectoryModification s time allowSnapshot batch dirId = (.error e, batch) := by
  unfold initiateDirectoryModification
  rw [h]

theorem initiateDir_recent {s dirId allowSnapshot dir time} (batch : List BatchOp)
    (h : getDirectory s dirId allowSnapshot = .ok dir) (hle : time ≤ dir.mtime) :
    initiateDirectoryModification s time allowSnapshot batch dirId
      = (.error .MTIME_IS_TOO_RECENT, batch) := by
  unfold initiateDirectoryModification
  rw [h]
  simp only [ge_iff_le, if_pos hle]

theorem initiateDir_ok {s dirId allowSnapshot dir time} (batch : List BatchOp)
    (h : getDirectory s dirId allowSnapshot = .ok dir) (hlt : dir.mtime < time) :
    initiateDirectoryModification s time allowSnapshot batch dirId
      = (.ok { dir with mtime := time },
         batch ++ [.putDirectory dirId { dir with mtime := time }]) := by
  have hnot : ¬ time ≤ dir.mtime := by omega
  unfold initiateDirectoryModification
  rw [h]
  simp only [ge_iff_le, if_neg hnot]

theorem initiateDirHash_ok {s dirId allowSnapshot dir time} (batch : List BatchOp)
    (name : List Nat)
    (h : getDirectory s dirId allowSnapshot = .ok dir) (hlt : dir.mtime < time) :
    initiateDirectoryModificationAndHash s time allowSnapshot batch dirId name
      = (.ok (computeNameHash dir.hashMode name),
         batch ++ [.putDirectory dirId { dir with mtime := time }]) := by
  unfold initiateDirectoryModificationAndHash
  rw [initiateDir_ok batch h hlt]

theorem initiateTransient_recent (cfg : ShardCfg) {s id allowPastDeadline f time} (batch : List BatchOp)
    (h : getTransientFile s time allowPastDeadline id = .ok f) (hle : time ≤ f.mtime) :
    initiateTransientFileModification cfg s time allowPastDeadline batch id
      = (.error .MTIME_IS_TOO_RECENT, batch) := by
  unfold initiateTransientFileModification
  rw [h]
  simp only [ge_iff_le, if_pos hle]

theorem initiateTransient_ok (cfg : ShardCfg) {s id allowPastDeadline f time} (batch : List BatchOp)
    (h : getTransientFile s time allowPastDeadline id = .ok f) (hlt : f.mtime < time) :
    initiateTransientFileModification cfg s time allowPastDeadline batch id
      = (.ok { f with
            mtime := time
            deadline := if ¬allowPastDeadline then time + cfg.transientDeadlineInterval
                        else f.deadline },
         batch ++ [.putTransient id { f with
            mtime := time
            deadline := if ¬allowPastDeadline then time + cfg.transientDeadlineInterval
                        else f.deadline }]) := by
  have hnot : ¬ time ≤ f.mtime := by omega
  unfold initiateTransientFileModification
  rw [h]
  simp only [ge_iff_le, if_neg hnot]

/-- A second FILE-typed inode id on shard 0. -/
def fileId2 : InodeId := ⟨512⟩

/-- A DIRECTORY-typed inode id on shard 0 (for counterexamples about
overriding directories). -/
def dirId2 : InodeId := ⟨2 * 2 ^ 62 + 256⟩

/-- The current-edge key for name `"a"` ( byte 97 ) in the root
directory under hash mode 0. -/
def edgeKey1 : CurrentEdgeKey := ⟨ROOT_DIR_INODE_ID, computeNameHash 0 [97], [97]⟩

/-- A state with the root directory (mtime 10) and one unlocked current
edge `"a" → fileId2` created at time 20. -/
def edgeState : ShardState :=
  ⟨5, 0, [(ROOT_DIR_INODE_ID, sampleDir)], [], [], [],
   [(edgeKey1, ⟨0, fileId2, false, 20⟩)], [], []⟩

/-- A state with the root directory (mtime 10) and one unlocked current
edge `"a" → dirId2` (a directory target) with creation time 100. -/
def edgeStateC3 : ShardState :=
  ⟨5, 0, [(ROOT_DIR_INODE_ID, sampleDir)], [], [], [],
   [(edgeKey1, ⟨0, dirId2, false, 100⟩)], [], []⟩

/-- A two-block mirrored location (storage class 3) at location id 0. -/
def spanLoc1 : LocationBlocksBody :=
  ⟨0, 3, ⟨1, 1⟩, 1, 4096, [⟨5, 1000, 9⟩, ⟨6, 1001, 9⟩], [9]⟩

/-- A blocked span of size 4096, crc 7, with the single location
`spanLoc1`. -/
def spanBody1 : SpanBody := ⟨4096, 7, .blocked [spanLoc1]⟩

/-- A transient file of size 8192 whose tail span is `spanBody1` at
offset 4096. -/
def tfC5 : TransientFileBody := ⟨0, 8192, 10, 1000000, .CLEAN, []⟩

/-- A state with `tfC5` and its tail span. -/
def spanState : ShardState :=
  ⟨5, 0, [], [(fileId1, tfC5)], [], [((fileId1, 4096), spanBody1)], [], [], []⟩

/-- A retry entry for the tail span of `tfC5` that matches `spanLoc1`
in size, crc, parity, stripes, cell size and location id but asks for
storage class 2 (the stored location has 3). -/
def entryC5 : AddSpanAtLocationInitiateEntry :=
  ⟨0, false, fileId1, 4096, 4096, 7, 2, ⟨1, 1⟩, 1, 4096, [], []⟩

/-! ## Batch monotonicity: every handler only appends to the batch and
never writes the applied-log cursor itself -/

/-- Is this operation the `last_applied_log_index` put written by
`_advanceLastAppliedLogEntry`?  No per-request handler emits it. -/
def BatchOp.isLastAppliedPut : BatchOp → Bool
  | .putLastApplied _ => true
  | _ => false

/-- `b'` is `b` with only per-request operations appended. -/
def BatchExtends (b b' : List BatchOp) : Prop :=
  ∃ ext, b' = b ++ ext ∧ ∀ op ∈ ext, op.isLastAppliedPut = false

theorem batchExtends_rfl (b : List BatchOp) : BatchExtends b b :=
  ⟨[], by simp, by simp⟩

theorem batchExtends_append (b : List BatchOp) (ops : List BatchOp)
    (h : ∀ op ∈ ops, op.isLastAppliedPut = false) : BatchExtends b (b ++ ops) :=
  ⟨ops, rfl, h⟩

theorem BatchExtends.push {b b' : List BatchOp} (h : BatchExtends b b')
    (ops : List BatchOp) (hops : ∀ op ∈ ops, op.isLastAppliedPut = false) :
    BatchExtends b (b' ++ ops) := by
  obtain ⟨ext, rfl, hext⟩ := h
  refine ⟨ext ++ ops, by simp, ?_⟩
  intro op hop
  rcases List.mem_append.mp hop with h | h
  · exact hext op h
  · exact hops op h

theorem BatchExtends.take {b b' : List BatchOp} (h : BatchExtends b b') :
    b'.take b.length = b := by
  obtain ⟨ext, rfl, -⟩ := h
  simp

theorem applyBatch_append (s : ShardState) (a b : List BatchOp) :
    applyBatch s (a ++ b) = applyBatch (applyBatch s a) b := by
  simp [applyBatch, List.foldl_append]

theorem applyOp_lastApplied (s : ShardState) (op : BatchOp)
    (h : op.isLastAppliedPut = false) :
    (applyOp s op).lastApplied = s.lastApplied := by
  cases op <;> simp_all [applyOp, BatchOp.isLastAppliedPut]

theorem applyBatch_lastApplied (ops : List BatchOp)
    (h : ∀ op ∈ ops, op.isLastAppliedPut = false) (s : ShardState) :
    (applyBatch s ops).lastApplied = s.lastApplied := by
  induction ops generalizing s with
  | nil => rfl
  | cons op rest ih =>
    have hop := h op (by simp)
    have hrest : ∀ op ∈ rest, op.isLastAppliedPut = false := fun o ho => h o (by simp [ho])
    show (applyBatch (applyOp s op) rest).lastApplied = s.lastApplied
    rw [ih hrest, applyOp_lastApplied s op hop]

theorem some_pair_eq {α β : Type} {x r : α} {y b : β}
    (h : some (x, y) = some (r, b)) : r = x ∧ b = y := by
  cases h
  exact ⟨rfl, rfl⟩

theorem initiateDir_extends (s : ShardState) (time : Nat) (allowSnapshot : Bool)
    (batch : List BatchOp) (dirId : InodeId) :
    BatchExtends batch (initiateDirectoryModification s time allowSnapshot batch dirId).2 := by
  unfold initiateDirectoryModification
  cases h : getDirectory s dirId allowSnapshot with
  | error e => exact batchExtends_rfl batch
  | ok dir =>
    dsimp only
    split
    · exact batchExtends_rfl batch
    · exact batchExtends_append batch _ (by simp [BatchOp.isLastAppliedPut])

theorem initiateDirHash_extends (s : ShardState) (time : Nat) (allowSnapshot : Bool)
    (batch : List BatchOp) (dirId : InodeId) (name : List Nat) :
    BatchExtends batch
      (initiateDirectoryModificationAndHash s time allowSnapshot batch dirId name).2 := by
  unfold initiateDirectoryModificationAndHash
  have := initiateDir_extends s time allowSnapshot batch dirId
  rcases h : initiateDirectoryModification s time allowSnapshot batch dirId with ⟨r, b1⟩
  rw [h] at this
  cases r <;> exact this

theorem initiateTransient_extends (cfg : ShardCfg) (s : ShardState) (time : Nat)
    (allowPastDeadline : Bool) (batch : List BatchOp) (id : InodeId) :
    BatchExtends batch
      (initiateTransientFileModification cfg s time allowPastDeadline batch id).2 := by
  unfold initiateTransientFileModification
  cases h : getTransientFile s time allowPastDeadline id with
  | error e => exact batchExtends_rfl batch
  | ok f =>
    dsimp only
    split
    · exact batchExtends_rfl batch
    · exact batchExtends_append batch _ (by simp [BatchOp.isLastAppliedPut])

theorem createCurrentEdge_extends (s : ShardState) (time : Nat) (batch : List BatchOp)
    (dirId : InodeId) (name : List Nat) (targetId : InodeId) (lk : Bool) (oct : Nat)
    (r : Except TernError Nat) (b' : List BatchOp)
    (h : createCurrentEdge s time batch dirId name targetId lk oct = some (r, b')) :
    BatchExtends batch b' := by
  have hib := initiateDirHash_extends s time false batch dirId name
  unfold createCurrentEdge at h
  rcases hinit : initiateDirectoryModificationAndHash s time false batch dirId name
    with ⟨ir, ib⟩
  rw [hinit] at h hib
  split at h
  · exact absurd h (by simp)
  · cases ir with
    | error e =>
      simp only at h
      obtain ⟨-, rfl⟩ := some_pair_eq h
      exact hib
    | ok nameHash =>
      simp only at h
      split at h
      · split at h
        · obtain ⟨-, rfl⟩ := some_pair_eq h
          exact hib
        · obtain ⟨-, rfl⟩ := some_pair_eq h
          exact hib.push _ (by simp [BatchOp.isLastAppliedPut])
      · split at h
        · split at h
          · obtain ⟨-, rfl⟩ := some_pair_eq h
            exact hib
          · split at h
            · obtain ⟨-, rfl⟩ := some_pair_eq h
              exact hib
            · split at h
              · obtain ⟨-, rfl⟩ := some_pair_eq h
                exact hib
              · obtain ⟨-, rfl⟩ := some_pair_eq h
                exact hib.push _ (by simp [BatchOp.isLastAppliedPut])
        · split at h
          · obtain ⟨-, rfl⟩ := some_pair_eq h
            exact hib
          · split at h
            · obtain ⟨-, rfl⟩ := some_pair_eq h
              exact hib
            · obtain ⟨-, rfl⟩ := some_pair_eq h
              exact hib.push _ (by simp [BatchOp.isLastAppliedPut])

theorem softUnlink_extends (s : ShardState) (time : Nat) (batch : List BatchOp)
    (dirId : InodeId) (name : List Nat) (c : Nat) (t : InodeId) (owned : Bool) :
    BatchExtends batch (softUnlinkCurrentEdge s time batch dirId name c t owned).2 := by
  have hib := initiateDirHash_extends s time false batch dirId name
  unfold softUnlinkCurrentEdge
  rcases hinit : initiateDirectoryModificationAndHash s time false batch dirId name
    with ⟨ir, ib⟩
  rw [hinit] at hib
  cases ir with
  | error e => exact hib
  | ok nameHash =>
    dsimp only
    split
    · exact hib
    · split
      · exact hib
      · split
        · exact hib
        · split
          · exact hib
          · exact hib.push _ (by simp [BatchOp.isLastAppliedPut])

theorem applySoftUnlinkFile_extends (s : ShardState) (time : Nat)
    (batch : List BatchOp) (entry : SoftUnlinkFileEntry) :
    BatchExtends batch (applySoftUnlinkFile s time batch entry).2 := by
  have hsu := softUnlink_extends s time batch entry.ownerId entry.name
    entry.creationTime entry.fileId true
  unfold applySoftUnlinkFile
  rcases hx : softUnlinkCurrentEdge s time batch entry.ownerId entry.name
      entry.creationTime entry.fileId true with ⟨r, b1⟩
  rw [hx] at hsu
  cases r <;> exact hsu

theorem applySameDirectoryRename_extends (s : ShardState) (time : Nat)
    (batch : List BatchOp) (entry : SameDirectoryRenameEntry)
    (r : Except TernError Nat) (b' : List BatchOp)
    (h : applySameDirectoryRename s time batch entry = some (r, b')) :
    BatchExtends batch b' := by
  have hsu := softUnlink_extends s time batch entry.dirId entry.oldName
    entry.oldCreationTime entry.targetId false
  unfold applySameDirectoryRename at h
  rcases hx : softUnlinkCurrentEdge s time batch entry.dirId entry.oldName
      entry.oldCreationTime entry.targetId false with ⟨r1, b1⟩
  rw [hx] at h hsu
  cases r1 with
  | error e =>
    simp only at h
    obtain ⟨-, rfl⟩ := some_pair_eq h
    exact hsu
  | ok u =>
    simp only at h
    obtain ⟨ext, rfl, hext⟩ := hsu
    obtain ⟨ext2, rfl, hext2⟩ := createCurrentEdge_extends s time (batch ++ ext)
      entry.dirId entry.newName entry.targetId false 0 r b' h
    refine ⟨ext ++ ext2, by simp, ?_⟩
    intro op hop
    rcases List.mem_append.mp hop with hh | hh
    · exact hext op hh
    · exact hext2 op hh

theorem applyAddInlineSpan_extends (cfg : ShardCfg) (s : ShardState) (time : Nat)
    (batch : List BatchOp) (entry : AddInlineSpanEntry) :
    BatchExtends batch (applyAddInlineSpan cfg s time batch entry).2 := by
  have hit := initiateTransient_extends cfg s time false batch entry.fileId
  unfold applyAddInlineSpan
  rcases hx : initiateTransientFileModification cfg s time false batch entry.fileId
    with ⟨r, b1⟩
  rw [hx] at hit
  cases r with
  | error e => exact hit
  | ok file =>
    dsimp only at hit ⊢
    repeat' split
    all_goals
      first
        | exact hit
        | exact hit.push _ (by simp [BatchOp.isLastAppliedPut])

theorem applyAddSpanInitiate_extends (cfg : ShardCfg) (s : ShardState) (time : Nat)
    (batch : List BatchOp) (entry : AddSpanAtLocationInitiateEntry) :
    BatchExtends batch (applyAddSpanInitiate cfg s time batch entry).2 := by
  have hit := initiateTransient_extends cfg s time false batch entry.fileId
  unfold applyAddSpanInitiate
  rcases hx : initiateTransientFileModification cfg s time false batch entry.fileId
    with ⟨r, b1⟩
  rw [hx] at hit
  cases r with
  | error e => exact hit
  | ok file =>
    dsimp only at hit ⊢
    repeat' split
    all_goals
      first
        | exact hit
        | exact ((hit.push _ (by simp [BatchOp.isLastAppliedPut])).push _
            (by intro op hop
                obtain ⟨b, -, rfl⟩ := List.mem_map.mp hop
                rfl)).push _ (by simp [BatchOp.isLastAppliedPut])

theorem applyAddSpanCertify_extends (cfg : ShardCfg) (bsKeys : Nat → Nat)
    (s : ShardState) (time : Nat) (batch : List BatchOp)
    (entry : AddSpanCertifyEntry) (r : Except TernError Unit) (b' : List BatchOp)
    (h : applyAddSpanCertify cfg bsKeys s time batch entry = some (r, b')) :
    BatchExtends batch b' := by
  have hit := initiateTransient_extends cfg s time false batch entry.fileId
  unfold applyAddSpanCertify at h
  rcases hx : initiateTransientFileModification cfg s time false batch entry.fileId
    with ⟨ir, ib⟩
  rw [hx] at h hit
  cases ir with
  | error e =>
    simp only at h
    obtain ⟨-, rfl⟩ := some_pair_eq h
    exact hit
  | ok file =>
    dsimp only at hit h
    repeat' split at h
    all_goals
      first
        | (obtain ⟨-, rfl⟩ := some_pair_eq h
           exact hit)
        | (obtain ⟨-, rfl⟩ := some_pair_eq h
           exact hit.push _ (by simp [BatchOp.isLastAppliedPut]))
        | exact absurd h (by simp)

theorem applyLogEntryBody_extends (cfg : ShardCfg) (bsKeys : Nat → Nat)
    (s : ShardState) (time : Nat) (batch : List BatchOp) (body : LogEntryBody)
    (err : TernError) (b' : List BatchOp)
    (h : applyLogEntryBody cfg bsKeys s time batch body = some (err, b')) :
    BatchExtends batch b' := by
  cases body with
  | softUnlinkFile e =>
    have := applySoftUnlinkFile_extends s time batch e
    simp only [applyLogEntryBody] at h
    rcases hx : applySoftUnlinkFile s time batch e with ⟨r, b1⟩
    rw [hx] at h this
    obtain rfl : b1 = b' := by cases h; rfl
    exact this
  | sameDirectoryRename e =>
    simp only [applyLogEntryBody] at h
    rcases hx : applySameDirectoryRename s time batch e with - | ⟨r, b1⟩
    · rw [hx] at h
      exact absurd h (by simp)
    · rw [hx] at h
      obtain rfl : b1 = b' := by cases h; rfl
      exact applySameDirectoryRename_extends s time batch e r b1 hx
  | createLockedCurrentEdge e =>
    simp only [applyLogEntryBody] at h
    rcases hx : applyCreateLockedCurrentEdge s time batch e with - | ⟨r, b1⟩
    · rw [hx] at h
      exact absurd h (by simp)
    · rw [hx] at h
      obtain rfl : b1 = b' := by cases h; rfl
      exact createCurrentEdge_extends s time batch e.dirId e.name e.targetId true
        e.oldCreationTime r b1 hx
  | addInlineSpan e =>
    have := applyAddInlineSpan_extends cfg s time batch e
    simp only [applyLogEntryBody] at h
    rcases hx : applyAddInlineSpan cfg s time batch e with ⟨r, b1⟩
    rw [hx] at h this
    obtain rfl : b1 = b' := by cases h; rfl
    exact this
  | addSpanAtLocationInitiate e =>
    have := applyAddSpanInitiate_extends cfg s time batch e
    simp only [applyLogEntryBody] at h
    rcases hx : applyAddSpanInitiate cfg s time batch e with ⟨r, b1⟩
    rw [hx] at h this
    obtain rfl : b1 = b' := by cases h; rfl
    exact this
  | addSpanCertify e =>
    simp only [applyLogEntryBody] at h
    rcases hx : applyAddSpanCertify cfg bsKeys s time batch e with - | ⟨r, b1⟩
    · rw [hx] at h
      exact absurd h (by simp)
    · rw [hx] at h
      obtain rfl : b1 = b' := by cases h; rfl
      exact applyAddSpanCertify_extends cfg bsKeys s time batch e r b1 hx

/-! ## Theorems -/

/-- C2: for every directory-affecting apply and every
transient-file-affecting apply, once the record has been fetched: if
its stored mtime is ≥ the log-entry time the operation fails with
`MTIME_IS_TOO_RECENT` and nothing is written (the record is unchanged);
otherwise its mtime is set equal to the log-entry time, which is
strictly greater than the previous mtime, and nothing else of the
record changes except the transient file's deadline refresh. -/
theorem C2_mtime_guard (cfg : ShardCfg) (s : ShardState) (time : Nat) :
    (∀ (allowSnapshot : Bool) (batch : List BatchOp) (dirId : InodeId)
        (dir : DirectoryBody),
      getDirectory s dirId allowSnapshot = .ok dir →
        (time ≤ dir.mtime →
          initiateDirectoryModification s time allowSnapshot batch dirId
            = (.error .MTIME_IS_TOO_RECENT, batch)) ∧
        (dir.mtime < time →
          initiateDirectoryModification s time allowSnapshot batch dirId
            = (.ok { dir with mtime := time },
               batch ++ [.putDirectory dirId { dir with mtime := time }])
          ∧ ({ dir with mtime := time } : DirectoryBody).mtime = time
          ∧ dir.mtime < ({ dir with mtime := time } : DirectoryBody).mtime)) ∧
    (∀ (allowPastDeadline : Bool) (batch : List BatchOp) (id : InodeId)
        (f : TransientFileBody),
      getTransientFile s time allowPastDeadline id = .ok f →
        (time ≤ f.mtime →
          initiateTransientFileModification cfg s time allowPastDeadline batch id
            = (.error .MTIME_IS_TOO_RECENT, batch)) ∧
        (f.mtime < time →
          initiateTransientFileModification cfg s time allowPastDeadline batch id
            = (.ok { f with
                  mtime := time
                  deadline := if ¬allowPastDeadline then
                      time + cfg.transientDeadlineInterval
                    else f.deadline },
               batch ++ [.putTransient id { f with
                  mtime := time
                  deadline := if ¬allowPastDeadline then
                      time + cfg.transientDeadlineInterval
                    else f.deadline }])
          ∧ f.mtime < time)) := by
  constructor
  · intro allowSnapshot batch dirId dir hget
    exact ⟨fun hle => initiateDir_recent batch hget hle,
           fun hlt => ⟨initiateDir_ok batch hget hlt, rfl, hlt⟩⟩
  · intro allowPastDeadline batch id f hget
    exact ⟨fun hle => initiateTransient_recent cfg batch hget hle,
           fun hlt => ⟨initiateTransient_ok cfg batch hget hlt, hlt⟩⟩

/-- Witness for C2 at a concrete state: the root directory (mtime 10)
and a transient file (mtime 10) are both advanced to mtime 50 by an
apply at time 50. -/
theorem C2_mtime_guard_witness :
    sampleDir.mtime < 50 ∧
    initiateDirectoryModification sampleState 50 false [] ROOT_DIR_INODE_ID
      = (.ok { sampleDir with mtime := 50 },
         [.putDirectory ROOT_DIR_INODE_ID { sampleDir with mtime := 50 }]) ∧
    sampleTransientFile.mtime < 50 ∧
    initiateTransientFileModification cfg0 sampleState 50 false [] fileId1
      = (.ok { sampleTransientFile with mtime := 50, deadline := 3650 },
         [.putTransient fileId1
           { sampleTransientFile with mtime := 50, deadline := 3650 }]) :=
  ⟨by decide,
   (((C2_mtime_guard cfg0 sampleState 50).1 false [] ROOT_DIR_INODE_ID sampleDir
      (by rfl)).2 (by decide)).1,
   by decide,
   (((C2_mtime_guard cfg0 sampleState 50).2 false [] fileId1 sampleTransientFile
      (by rfl)).2 (by decide)).1⟩

/-- C10: an `AddInlineSpan` apply with an empty inline body returns
success right after the transient-file preamble: the span map, the
file's size and its last-span state are untouched — only the
mtime/deadline refresh is written — even when the entry's declared
size is nonzero.  The prepare phase admits that shape for INLINE
storage: it only requires `size != 0 && size >= body.size()`, so an
empty body passes with any nonzero size. -/
theorem C10_empty_inline_span_noop (cfg : ShardCfg) (s : ShardState) (time : Nat)
    (batch : List BatchOp) :
    (∀ req : AddInlineSpanReq,
      req.storageClass = INLINE_STORAGE →
      req.body = [] →
      req.size ≠ 0 →
      (req.fileId.ityp = .FILE ∨ req.fileId.ityp = .SYMLINK) →
      req.fileId.shard = cfg.shid →
      req.cookie = calcCookie cfg.secretKey req.fileId →
      req.byteOffset % TERNFS_PAGE_SIZE = 0 →
      req.crc = crc32cZeroExtend (crc32c 0 req.body) (req.size - req.body.length) →
      prepareAddInlineSpan cfg req
        = .ok ⟨req.fileId, req.storageClass, req.byteOffset, req.size, req.crc,
               req.body⟩) ∧
    (∀ (entry : AddInlineSpanEntry) (tf : TransientFileBody),
      entry.body = [] →
      getTransientFile s time false entry.fileId = .ok tf →
      tf.mtime < time →
      applyAddInlineSpan cfg s time batch entry
        = (.ok (), batch ++ [.putTransient entry.fileId
            { tf with mtime := time,
                      deadline := time + cfg.transientDeadlineInterval }])) := by
  constructor
  · intro req hsc hbody hsize htyp hshard hcookie hoff hcrc
    have h1 : ¬(req.fileId.ityp ≠ .FILE ∧ req.fileId.ityp ≠ .SYMLINK) := by
      rcases htyp with h | h <;> simp [h]
    have hck : checkTransientFileCookie cfg req.fileId req.cookie = .NO_ERROR := by
      unfold checkTransientFileCookie
      rw [if_neg h1, if_neg (not_not_intro hcookie)]
    have hne : req.storageClass ≠ EMPTY_STORAGE := by
      rw [hsc]; unfold INLINE_STORAGE EMPTY_STORAGE; omega
    have hnosize : ¬(req.size = 0 ∨ req.size < req.body.length) := by
      rw [hbody]; simpa using hsize
    simp [prepareAddInlineSpan, prepareAddInlineSpan.prepareAddInlineSpanTail,
      hck, h1, hne, hsc, hnosize, hoff, hshard, ← hcrc, EMPTY_STORAGE, INLINE_STORAGE]
  · intro entry tf hbody hget hlt
    unfold applyAddInlineSpan
    rw [initiateTransient_ok cfg batch hget hlt]
    simp [hbody]

/-- Witness for C10: a concrete INLINE request with empty body and
declared size 4096 passes prepare, and its apply at time 50 on
`sampleState` leaves everything but the transient file's
mtime/deadline untouched. -/
theorem C10_empty_inline_span_noop_witness :
    prepareAddInlineSpan cfg0
        ⟨fileId1, calcCookie cfg0.secretKey fileId1, INLINE_STORAGE, 0, 4096,
         crc32cZeroExtend (crc32c 0 []) 4096, []⟩
      = .ok ⟨fileId1, INLINE_STORAGE, 0, 4096, crc32cZeroExtend (crc32c 0 []) 4096, []⟩ ∧
    applyAddInlineSpan cfg0 sampleState 50 []
        ⟨fileId1, INLINE_STORAGE, 0, 4096, crc32cZeroExtend (crc32c 0 []) 4096, []⟩
      = (.ok (), [.putTransient fileId1
          { sampleTransientFile with mtime := 50, deadline := 3650 }]) :=
  ⟨(C10_empty_inline_span_noop cfg0 sampleState 50 []).1
      ⟨fileId1, calcCookie cfg0.secretKey fileId1, INLINE_STORAGE, 0, 4096,
       crc32cZeroExtend (crc32c 0 []) 4096, []⟩
      rfl rfl (by decide) (.inl (by decide)) (by decide) rfl (by decide) rfl,
   (C10_empty_inline_span_noop cfg0 sampleState 50 []).2
      ⟨fileId1, INLINE_STORAGE, 0, 4096, crc32cZeroExtend (crc32c 0 []) 4096, []⟩
      sampleTransientFile rfl (by rfl) (by decide)⟩

/-- C4: a soft-unlink apply on directory `dirId`, name `name`, target
`t`, claimed creation time `c` (once the directory preamble has
succeeded) succeeds only when a current edge exists whose target is `t`,
whose creation time is `c`, and which is not locked — otherwise it fails
with `EDGE_NOT_FOUND` / `MISMATCHING_TARGET` /
`MISMATCHING_CREATION_TIME` / `EDGE_IS_LOCKED` appending nothing beyond
the preamble.  On success it deletes the current edge and inserts
exactly two snapshot edges: one at `c` with target `t` and the given
`owned` flag, and one at the log-entry time with target `NULL_INODE_ID`
and `owned = false`; writing those operations leaves the current edge
deleted and both snapshot records present (their keys are distinct in
any reachable state since `c < time` there, the hypothesis `c ≠ time`
below). -/
theorem C4_soft_unlink (s : ShardState) (time : Nat) (batch : List BatchOp)
    (dirId : InodeId) (name : List Nat) (c : Nat) (t : InodeId) (owned : Bool)
    (dir : DirectoryBody)
    (hdir : getDirectory s dirId false = .ok dir)
    (hmt : dir.mtime < time) :
    (storeGet s.currentEdges ⟨dirId, computeNameHash dir.hashMode name, name⟩ = none →
      softUnlinkCurrentEdge s time batch dirId name c t owned
        = (.error .EDGE_NOT_FOUND,
           batch ++ [.putDirectory dirId { dir with mtime := time }])) ∧
    (∀ e, storeGet s.currentEdges ⟨dirId, computeNameHash dir.hashMode name, name⟩
        = some e →
      (e.targetId ≠ t →
        softUnlinkCurrentEdge s time batch dirId name c t owned
          = (.error .MISMATCHING_TARGET,
             batch ++ [.putDirectory dirId { dir with mtime := time }])) ∧
      (e.targetId = t → e.creationTime ≠ c →
        softUnlinkCurrentEdge s time batch dirId name c t owned
          = (.error .MISMATCHING_CREATION_TIME,
             batch ++ [.putDirectory dirId { dir with mtime := time }])) ∧
      (e.targetId = t → e.creationTime = c → e.locked = true →
        softUnlinkCurrentEdge s time batch dirId name c t owned
          = (.error .EDGE_IS_LOCKED,
             batch ++ [.putDirectory dirId { dir with mtime := time }])) ∧
      (e.targetId = t → e.creationTime = c → e.locked = false →
        softUnlinkCurrentEdge s time batch dirId name c t owned
          = (.ok (),
             batch ++ [.putDirectory dirId { dir with mtime := time },
               .deleteCurrentEdge ⟨dirId, computeNameHash dir.hashMode name, name⟩,
               .putSnapshotEdge ⟨dirId, computeNameHash dir.hashMode name, name, c⟩
                 ⟨0, t, owned⟩,
               .putSnapshotEdge ⟨dirId, computeNameHash dir.hashMode name, name, time⟩
                 ⟨0, NULL_INODE_ID, false⟩])
        ∧ (c ≠ time →
            (storeGet (applyBatch s
                [.putDirectory dirId { dir with mtime := time },
                 .deleteCurrentEdge ⟨dirId, computeNameHash dir.hashMode name, name⟩,
                 .putSnapshotEdge ⟨dirId, computeNameHash dir.hashMode name, name, c⟩
                   ⟨0, t, owned⟩,
                 .putSnapshotEdge ⟨dirId, computeNameHash dir.hashMode name, name, time⟩
                   ⟨0, NULL_INODE_ID, false⟩]).currentEdges
               ⟨dirId, computeNameHash dir.hashMode name, name⟩ = none ∧
             storeGet (applyBatch s
                [.putDirectory dirId { dir with mtime := time },
                 .deleteCurrentEdge ⟨dirId, computeNameHash dir.hashMode name, name⟩,
                 .putSnapshotEdge ⟨dirId, computeNameHash dir.hashMode name, name, c⟩
                   ⟨0, t, owned⟩,
                 .putSnapshotEdge ⟨dirId, computeNameHash dir.hashMode name, name, time⟩
                   ⟨0, NULL_INODE_ID, false⟩]).snapshotEdges
               ⟨dirId, computeNameHash dir.hashMode name, name, c⟩ = some ⟨0, t, owned⟩ ∧
             storeGet (applyBatch s
                [.putDirectory dirId { dir with mtime := time },
                 .deleteCurrentEdge ⟨dirId, computeNameHash dir.hashMode name, name⟩,
                 .putSnapshotEdge ⟨dirId, computeNameHash dir.hashMode name, name, c⟩
                   ⟨0, t, owned⟩,
                 .putSnapshotEdge ⟨dirId, computeNameHash dir.hashMode name, name, time⟩
                   ⟨0, NULL_INODE_ID, false⟩]).snapshotEdges
               ⟨dirId, computeNameHash dir.hashMode name, name, time⟩
               = some ⟨0, NULL_INODE_ID, false⟩)))) := by
  have hinit := initiateDirHash_ok batch name hdir hmt
  constructor
  · intro hnone
    simp [softUnlinkCurrentEdge, hinit, hnone]
  · intro e hsome
    refine ⟨?_, ?_, ?_, ?_⟩
    · intro htar
      simp [softUnlinkCurrentEdge, hinit, hsome, htar]
    · intro htar hct
      simp [softUnlinkCurrentEdge, hinit, hsome, htar, hct]
    · intro htar hct hlock
      simp [softUnlinkCurrentEdge, hinit, hsome, htar, hct, hlock]
    · intro htar hct hlock
      constructor
      · simp [softUnlinkCurrentEdge, hinit, hsome, htar, hct, hlock]
      · intro hne
        refine ⟨?_, ?_, ?_⟩
        · simp only [applyBatch, List.foldl, applyOp]
          exact storeGet_del_self _ _
        · simp only [applyBatch, List.foldl, applyOp]
          rw [storeGet_put_other _ _ _ _ (by simp [hne]), storeGet_put_self]
        · simp only [applyBatch, List.foldl, applyOp]
          rw [storeGet_put_self]

/-- Witness for C4: soft-unlinking the edge `"a" → fileId2` (creation
time 20, unlocked) from the root at time 50 deletes the current edge
and writes the two snapshot edges. -/
theorem C4_soft_unlink_witness :
    softUnlinkCurrentEdge edgeState 50 [] ROOT_DIR_INODE_ID [97] 20 fileId2 true
      = (.ok (),
         [.putDirectory ROOT_DIR_INODE_ID { sampleDir with mtime := 50 },
          .deleteCurrentEdge edgeKey1,
          .putSnapshotEdge ⟨ROOT_DIR_INODE_ID, computeNameHash 0 [97], [97], 20⟩
            ⟨0, fileId2, true⟩,
          .putSnapshotEdge ⟨ROOT_DIR_INODE_ID, computeNameHash 0 [97], [97], 50⟩
            ⟨0, NULL_INODE_ID, false⟩]) :=
  (((C4_soft_unlink edgeState 50 [] ROOT_DIR_INODE_ID [97] 20 fileId2 true sampleDir
      rfl (by decide)).2 ⟨0, fileId2, false, 20⟩ rfl).2.2.2 rfl rfl rfl).1

/-- Counterexample for C3 as stated: at log-entry time 50, the root
directory carries an unlocked current edge `"a" → dirId2` whose target
is a directory and whose creation time is 100 ≥ 50.  The claim says the
operation "fails with CannotOverrideName when either the new target or
the existing target is a directory", but `_createCurrentEdge` checks
the creation time first (ShardDB.cpp line 2158 before line 2161) and
returns `MORE_RECENT_CURRENT_EDGE`. -/
theorem C3_create_edge_counterexample :
    dirId2.ityp = .DIRECTORY ∧
    storeGet edgeStateC3.currentEdges
        ⟨ROOT_DIR_INODE_ID, computeNameHash sampleDir.hashMode [97], [97]⟩
      = some ⟨0, dirId2, false, 100⟩ ∧
    (⟨0, dirId2, false, 100⟩ : CurrentEdgeBody).locked = false ∧
    (100 : Nat) ≥ 50 ∧
    createCurrentEdge edgeStateC3 50 [] ROOT_DIR_INODE_ID [97] fileId2 false 0
      = some (.error .MORE_RECENT_CURRENT_EDGE,
              [.putDirectory ROOT_DIR_INODE_ID { sampleDir with mtime := 50 }]) ∧
    TernError.MORE_RECENT_CURRENT_EDGE ≠ TernError.CANNOT_OVERRIDE_NAME :=
  ⟨by decide, by rfl, by decide, by decide, by rfl, by decide⟩

/-- C3 amended: when an unlocked current edge with the same name exists,
the creation-time check takes priority: the apply fails with
`MORE_RECENT_CURRENT_EDGE` when the existing edge's creation time is ≥
the log-entry time; otherwise it fails with `CANNOT_OVERRIDE_NAME` when
either the new target or the existing target is a directory; otherwise
it converts the existing current edge into a snapshot edge at its own
creation time marked `owned = true` and inserts the new current edge
with creation time equal to the log-entry time. -/
theorem C3_create_edge_override (s : ShardState) (time : Nat) (batch : List BatchOp)
    (dirId : InodeId) (name : List Nat) (targetId : InodeId)
    (lk : Bool) (oldCreationTime : Nat)
    (dir : DirectoryBody) (e : CurrentEdgeBody)
    (hassert : lk ∨ oldCreationTime = 0)
    (hdir : getDirectory s dirId false = .ok dir)
    (hmt : dir.mtime < time)
    (hsome : storeGet s.currentEdges
      ⟨dirId, computeNameHash dir.hashMode name, name⟩ = some e)
    (hunlocked : e.locked = false) :
    (time ≤ e.creationTime →
      createCurrentEdge s time batch dirId name targetId lk oldCreationTime
        = some (.error .MORE_RECENT_CURRENT_EDGE,
                batch ++ [.putDirectory dirId { dir with mtime := time }])) ∧
    (e.creationTime < time →
      (targetId.ityp = .DIRECTORY ∨ e.targetId.ityp = .DIRECTORY) →
      createCurrentEdge s time batch dirId name targetId lk oldCreationTime
        = some (.error .CANNOT_OVERRIDE_NAME,
                batch ++ [.putDirectory dirId { dir with mtime := time }])) ∧
    (e.creationTime < time →
      ¬(targetId.ityp = .DIRECTORY ∨ e.targetId.ityp = .DIRECTORY) →
      createCurrentEdge s time batch dirId name targetId lk oldCreationTime
        = some (.ok time,
            batch ++ [.putDirectory dirId { dir with mtime := time },
              .putSnapshotEdge
                ⟨dirId, computeNameHash dir.hashMode name, name, e.creationTime⟩
                ⟨0, e.targetId, true⟩,
              .putCurrentEdge ⟨dirId, computeNameHash dir.hashMode name, name⟩
                ⟨0, targetId, lk, time⟩])) := by
  have hinit := initiateDirHash_ok batch name hdir hmt
  have hpass : ¬¬(lk = true ∨ oldCreationTime = 0) := by
    rcases hassert with h | h
    · exact not_not_intro (Or.inl h)
    · exact not_not_intro (Or.inr h)
  refine ⟨?_, ?_, ?_⟩
  · intro hle
    simp [createCurrentEdge, hpass, hinit, hsome, hunlocked, hle, hassert]
  · intro hlt hdirt
    have hnle : ¬ time ≤ e.creationTime := by omega
    simp [createCurrentEdge, hpass, hinit, hsome, hunlocked, hnle, hdirt, hassert]
  · intro hlt hdirt
    have hnle : ¬ time ≤ e.creationTime := by omega
    simp [createCurrentEdge, hpass, hinit, hsome, hunlocked, hnle, hdirt, hassert]

/-- Witness for the amended C3: overriding the unlocked file edge
`"a" → fileId2` (creation time 20 < 50, no directory on either side)
at time 50 with new target `fileId1` converts the old edge into an
owned snapshot edge at time 20 and installs the new current edge at
time 50. -/
theorem C3_create_edge_override_witness :
    createCurrentEdge edgeState 50 [] ROOT_DIR_INODE_ID [97] fileId1 false 0
      = some (.ok 50,
          [.putDirectory ROOT_DIR_INODE_ID { sampleDir with mtime := 50 },
           .putSnapshotEdge ⟨ROOT_DIR_INODE_ID, computeNameHash 0 [97], [97], 20⟩
             ⟨0, fileId2, true⟩,
           .putCurrentEdge ⟨ROOT_DIR_INODE_ID, computeNameHash 0 [97], [97]⟩
             ⟨0, fileId1, false, 50⟩]) :=
  (C3_create_edge_override edgeState 50 [] ROOT_DIR_INODE_ID [97] fileId1 false 0
      sampleDir ⟨0, fileId2, false, 20⟩ (Or.inr rfl) rfl (by decide) rfl rfl).2.2
    (by decide) (by decide)

/-- Counterexample for C5 as stated: the stored tail span matches the
retry entry in size, crc, parity, stripes, cell size and location id
but has storage class 3 where the entry asks for 2 — per the claim's
field list ("same size, crc, storage, parity, stripes, cell_size, and
location") this is a mismatch and should fail `SpanNotFound`, yet
`_applyAddSpanInitiate` never compares the storage class (ShardDB.cpp
lines 3028-3037) and returns success with the stored blocks. -/
theorem C5_add_span_retry_counterexample :
    spanLoc1.storageClass ≠ entryC5.storageClass ∧
    storeGet spanState.spans (fileId1, 4096) = some spanBody1 ∧
    tfC5.fileSize ≠ entryC5.byteOffset ∧
    tfC5.fileSize = entryC5.byteOffset + entryC5.size ∧
    applyAddSpanInitiate cfg0 spanState 50 [] entryC5
      = (.ok [⟨5, 1000⟩, ⟨6, 1001⟩],
         [.putTransient fileId1 { tfC5 with mtime := 50, deadline := 3650 }]) :=
  ⟨by decide, by rfl, by decide, by decide, by rfl⟩

/-- C5 amended: on an `AddSpanInitiate` apply where the transient
file's size differs from `byte_offset`: when the size equals
`byte_offset + size` and a span exists at that offset with non-inline
storage, exactly one location, and the same size, crc, cell_size,
stripes, parity and location id as the entry (the storage class is not
compared), the apply returns success with the previously chosen block
services unchanged; any other mismatch fails with `SPAN_NOT_FOUND`; in
all these cases nothing beyond the mtime/deadline preamble is written,
so no span state changes. -/
theorem C5_add_span_retry (cfg : ShardCfg) (s : ShardState) (time : Nat)
    (batch : List BatchOp) (entry : AddSpanAtLocationInitiateEntry)
    (tf : TransientFileBody)
    (hget : getTransientFile s time false entry.fileId = .ok tf)
    (hmt : tf.mtime < time)
    (hfs : tf.fileSize ≠ entry.byteOffset) :
    (tf.fileSize ≠ entry.byteOffset + entry.size →
      applyAddSpanInitiate cfg s time batch entry
        = (.error .SPAN_NOT_FOUND,
           batch ++ [.putTransient entry.fileId
             { tf with mtime := time,
                       deadline := time + cfg.transientDeadlineInterval }])) ∧
    (tf.fileSize = entry.byteOffset + entry.size →
      (storeGet s.spans (entry.fileId, entry.byteOffset) = none →
        applyAddSpanInitiate cfg s time batch entry
          = (.error .SPAN_NOT_FOUND,
             batch ++ [.putTransient entry.fileId
               { tf with mtime := time,
                         deadline := time + cfg.transientDeadlineInterval }])) ∧
      (∀ es, storeGet s.spans (entry.fileId, entry.byteOffset) = some es →
        (∀ b, es.storage = .inlineStorage b →
          applyAddSpanInitiate cfg s time batch entry
            = (.error .SPAN_NOT_FOUND,
               batch ++ [.putTransient entry.fileId
                 { tf with mtime := time,
                           deadline := time + cfg.transientDeadlineInterval }])) ∧
        (∀ locs, es.storage = .blocked locs → locs.length ≠ 1 →
          applyAddSpanInitiate cfg s time batch entry
            = (.error .SPAN_NOT_FOUND,
               batch ++ [.putTransient entry.fileId
                 { tf with mtime := time,
                           deadline := time + cfg.transientDeadlineInterval }])) ∧
        (∀ loc, es.storage = .blocked [loc] →
          (es.spanSize ≠ entry.size ∨ es.crc ≠ entry.crc ∨
           loc.cellSize ≠ entry.cellSize ∨ loc.stripes ≠ entry.stripes ∨
           loc.parity ≠ entry.parity ∨ loc.location ≠ entry.locationId) →
          applyAddSpanInitiate cfg s time batch entry
            = (.error .SPAN_NOT_FOUND,
               batch ++ [.putTransient entry.fileId
                 { tf with mtime := time,
                           deadline := time + cfg.transientDeadlineInterval }])) ∧
        (∀ loc, es.storage = .blocked [loc] →
          es.spanSize = entry.size → es.crc = entry.crc →
          loc.cellSize = entry.cellSize → loc.stripes = entry.stripes →
          loc.parity = entry.parity → loc.location = entry.locationId →
          applyAddSpanInitiate cfg s time batch entry
            = (.ok (fillInAddSpanInitiate loc),
               batch ++ [.putTransient entry.fileId
                 { tf with mtime := time,
                           deadline := time + cfg.transientDeadlineInterval }])))) := by
  have hinit := initiateTransient_ok cfg batch hget hmt
  refine ⟨?_, ?_⟩
  · intro hne
    simp [applyAddSpanInitiate, hinit, hfs, hne]
  · intro hsz
    have hs0 : entry.size ≠ 0 := by omega
    refine ⟨?_, ?_⟩
    · intro hnone
      simp [applyAddSpanInitiate, hinit, hfs, hsz, hnone, hs0]
    · intro es hsome
      refine ⟨?_, ?_, ?_, ?_⟩
      · intro b hinl
        simp [applyAddSpanInitiate, hinit, hfs, hsz, hsome, hinl, hs0]
      · intro locs hbl hlen
        rcases locs with _ | ⟨l1, _ | ⟨l2, rest⟩⟩
        · simp [applyAddSpanInitiate, hinit, hfs, hsz, hsome, hbl, hs0]
        · simp at hlen
        · simp [applyAddSpanInitiate, hinit, hfs, hsz, hsome, hbl, hs0]
      · intro loc hbl hmis
        have hcond : es.spanSize ≠ entry.size ∨ es.crc ≠ entry.crc ∨
            loc.cellSize ≠ entry.cellSize ∨ loc.stripes ≠ entry.stripes ∨
            loc.parity ≠ entry.parity ∨ loc.location ≠ entry.locationId := hmis
        simp [applyAddSpanInitiate, hinit, hfs, hsz, hsome, hbl, hs0, if_pos hcond]
      · intro loc hbl h1 h2 h3 h4 h5 h6
        simp [applyAddSpanInitiate, hinit, hfs, hsz, hsome, hbl, hs0, h1, h2, h3,
          h4, h5, h6]

/-- Witness for the amended C5: a retry matching the stored location in
every compared field (storage class 3 in both) returns the previously
chosen block services and writes only the preamble. -/
theorem C5_add_span_retry_witness :
    applyAddSpanInitiate cfg0 spanState 50 []
        ⟨0, false, fileId1, 4096, 4096, 7, 3, ⟨1, 1⟩, 1, 4096, [], []⟩
      = (.ok (fillInAddSpanInitiate spanLoc1),
         [.putTransient fileId1 { tfC5 with mtime := 50, deadline := 3650 }]) :=
  ((((C5_add_span_retry cfg0 spanState 50 []
      ⟨0, false, fileId1, 4096, 4096, 7, 3, ⟨1, 1⟩, 1, 4096, [], []⟩ tfC5
      rfl (by decide) (by decide)).2 rfl).2 spanBody1 rfl).2.2.2 spanLoc1
      rfl rfl rfl rfl rfl rfl rfl)

/-- C6: an `AddSpanCertify` apply on an existing span (once the
transient-file preamble has succeeded) returns success without touching
the last-span state when the file size is strictly past the span
(`file_size > byte_offset + span_size`) or when the state is already
CLEAN — in both cases only the mtime/deadline preamble is written, which
preserves `lastSpanState`.  A CONDEMNED tail fails `SPAN_NOT_FOUND`;
only a DIRTY tail with a blocked single-location span, a proof per
block, and every block-add proof verifying is transitioned to CLEAN;
any proof failure writes nothing beyond the preamble. -/
theorem C6_add_span_certify (cfg : ShardCfg) (bsKeys : Nat → Nat) (s : ShardState)
    (time : Nat) (batch : List BatchOp) (entry : AddSpanCertifyEntry)
    (tf : TransientFileBody) (span : SpanBody)
    (hget : getTransientFile s time false entry.fileId = .ok tf)
    (hmt : tf.mtime < time)
    (hspan : storeGet s.spans (entry.fileId, entry.byteOffset) = some span) :
    (tf.fileSize > entry.byteOffset + span.spanSize →
      applyAddSpanCertify cfg bsKeys s time batch entry
        = some (.ok (), batch ++ [.putTransient entry.fileId
            { tf with mtime := time,
                      deadline := time + cfg.transientDeadlineInterval }])) ∧
    (tf.fileSize ≤ entry.byteOffset + span.spanSize →
      tf.lastSpanState = .CLEAN →
      applyAddSpanCertify cfg bsKeys s time batch entry
        = some (.ok (), batch ++ [.putTransient entry.fileId
            { tf with mtime := time,
                      deadline := time + cfg.transientDeadlineInterval }])) ∧
    (tf.fileSize ≤ entry.byteOffset + span.spanSize →
      tf.lastSpanState = .CONDEMNED →
      applyAddSpanCertify cfg bsKeys s time batch entry
        = some (.error .SPAN_NOT_FOUND, batch ++ [.putTransient entry.fileId
            { tf with mtime := time,
                      deadline := time + cfg.transientDeadlineInterval }])) ∧
    (tf.fileSize ≤ entry.byteOffset + span.spanSize →
      tf.lastSpanState = .DIRTY →
      (∀ b, span.storage = .inlineStorage b →
        applyAddSpanCertify cfg bsKeys s time batch entry
          = some (.error .CANNOT_CERTIFY_BLOCKLESS_SPAN,
              batch ++ [.putTransient entry.fileId
                { tf with mtime := time,
                          deadline := time + cfg.transientDeadlineInterval }])) ∧
      (∀ loc, span.storage = .blocked [loc] →
        (loc.parity.blocks ≠ entry.proofs.length →
          applyAddSpanCertify cfg bsKeys s time batch entry
            = some (.error .BAD_NUMBER_OF_BLOCKS_PROOFS,
                batch ++ [.putTransient entry.fileId
                  { tf with mtime := time,
                            deadline := time + cfg.transientDeadlineInterval }])) ∧
        (loc.parity.blocks = entry.proofs.length →
          ¬((loc.blocks.take loc.parity.blocks).zip entry.proofs).all
              (fun bp => checkBlockAddProof bsKeys bp.1.blockService bp.2) →
          applyAddSpanCertify cfg bsKeys s time batch entry
            = some (.error .BAD_BLOCK_PROOF,
                batch ++ [.putTransient entry.fileId
                  { tf with mtime := time,
                            deadline := time + cfg.transientDeadlineInterval }])) ∧
        (loc.parity.blocks = entry.proofs.length →
          ((loc.blocks.take loc.parity.blocks).zip entry.proofs).all
              (fun bp => checkBlockAddProof bsKeys bp.1.blockService bp.2) →
          applyAddSpanCertify cfg bsKeys s time batch entry
            = some (.ok (),
                batch ++ [.putTransient entry.fileId
                  { tf with mtime := time,
                            deadline := time + cfg.transientDeadlineInterval },
                  .putTransient entry.fileId
                  { tf with mtime := time,
                            deadline := time + cfg.transientDeadlineInterval,
                            lastSpanState := .CLEAN }])))) := by
  have hinit := initiateTransient_ok cfg batch hget hmt
  refine ⟨?_, ?_, ?_, ?_⟩
  · intro hpast
    simp [applyAddSpanCertify, hinit, hspan, hpast]
  · intro hnp hclean
    have : ¬ tf.fileSize > entry.byteOffset + span.spanSize := by omega
    simp [applyAddSpanCertify, hinit, hspan, this, hclean]
  · intro hnp hcond
    have : ¬ tf.fileSize > entry.byteOffset + span.spanSize := by omega
    simp [applyAddSpanCertify, hinit, hspan, this, hcond]
  · intro hnp hdirty
    have hngt : ¬ tf.fileSize > entry.byteOffset + span.spanSize := by omega
    refine ⟨?_, ?_⟩
    · intro b hinl
      simp [applyAddSpanCertify, hinit, hspan, hngt, hdirty, hinl]
    · intro loc hbl
      refine ⟨?_, ?_, ?_⟩
      · intro hlen
        simp [applyAddSpanCertify, hinit, hspan, hngt, hdirty, hbl, hlen]
      · intro hlen hbad
        rw [hlen] at hbad
        simp [applyAddSpanCertify, hinit, hspan, hngt, hdirty, hbl, hlen]
        simpa using hbad
      · intro hlen hok
        rw [hlen] at hok
        simp [applyAddSpanCertify, hinit, hspan, hngt, hdirty, hbl, hlen]
        simpa using hok

/-- Witness for C6: certifying the tail span of `tfC5` (already CLEAN)
at time 50 returns success and writes only the preamble. -/
theorem C6_add_span_certify_witness :
    applyAddSpanCertify cfg0 (fun _ => 0) spanState 50 [] ⟨fileId1, 4096, []⟩
      = some (.ok (), [.putTransient fileId1
          { tfC5 with mtime := 50, deadline := 3650 }]) :=
  (C6_add_span_certify cfg0 (fun _ => 0) spanState 50 [] ⟨fileId1, 4096, []⟩
      tfC5 spanBody1 rfl (by decide) rfl).2.1 (by decide) rfl

/-- Counterexample for C8 as stated: `_prepareLinkFile` (ShardDB.cpp
lines 1096-1114) performs no name-validity check at all — a `LinkFile`
request whose name is the single byte `'/'` (47) passes prepare with
`NO_ERROR` and a log entry carrying that name, where the claim says
every name-carrying write request is rejected with `BadName`. -/
theorem C8_name_validation_counterexample :
    validName [47] = false ∧
    prepareLinkFile cfg0 ⟨fileId1, calcCookie cfg0.secretKey fileId1,
        ROOT_DIR_INODE_ID, [47]⟩
      = .ok ⟨fileId1, ROOT_DIR_INODE_ID, [47]⟩ :=
  ⟨by decide, by rfl⟩

/-- C8 amended: `validName` rejects exactly the empty name, `"."`,
`".."`, and names containing `'/'` or NUL (the 255-byte bound is
enforced by the one-byte `BincodeBytes` length); the prepare phase
applies it — rejecting with `BAD_NAME` and producing no log entry — for
`SameDirectoryRename`'s new name and for `CreateLockedCurrentEdge`'s
name, but `LinkFile`'s prepare copies the name into the log entry
without validating it (its outcome is independent of the name). -/
theorem C8_name_validation :
    (∀ name : List Nat,
      validName name = false ↔
        (name = [] ∨ name = [46] ∨ name = [46, 46] ∨ 47 ∈ name ∨ 0 ∈ name)) ∧
    (∀ (cfg : ShardCfg) (dontAllowDifferentNames : Bool)
        (req : SameDirectoryRenameReq),
      req.dirId.ityp = .DIRECTORY →
      ¬(dontAllowDifferentNames ∧ req.oldName = req.newName) →
      validName req.newName = false →
      prepareSameDirectoryRename cfg dontAllowDifferentNames req
        = .error .BAD_NAME) ∧
    (∀ (cfg : ShardCfg) (req : CreateLockedCurrentEdgeReq),
      req.dirId.ityp = .DIRECTORY →
      req.dirId.shard = cfg.shid →
      validName req.name = false →
      prepareCreateLockedCurrentEdge cfg req = some (.error .BAD_NAME)) ∧
    (∀ (cfg : ShardCfg) (req : LinkFileReq) (n' : List Nat),
      prepareLinkFile cfg { req with name := n' }
        = (prepareLinkFile cfg req).map fun e => { e with name := n' }) := by
  refine ⟨?_, ?_, ?_, ?_⟩
  · intro name
    by_cases h0 : name = []
    · simp [validName, h0]
    · by_cases hdot : name = [46] ∨ name = [46, 46]
      · rcases hdot with h | h <;> simp [validName, h]
      · have hd1 : ¬ name = [46] := fun h => hdot (Or.inl h)
        have hd2 : ¬ name = [46, 46] := fun h => hdot (Or.inr h)
        have hlen : ¬ name.length = 0 := by simp [h0]
        simp only [validName, if_neg hlen, if_neg hdot]
        simp [h0, hd1, hd2]
        constructor
        · rintro ⟨c, hc, himp⟩
          by_cases h47 : c = 47
          · exact Or.inl (h47 ▸ hc)
          · exact Or.inr ((himp h47) ▸ hc)
        · rintro (h47 | h00)
          · exact ⟨47, h47, fun hh => absurd rfl hh⟩
          · exact ⟨0, h00, fun _ => rfl⟩
  · intro cfg d req htyp hsame hbad
    have h1 : ¬ req.dirId.ityp ≠ InodeType.DIRECTORY := not_not_intro htyp
    have h2 : ¬ (d = true ∧ req.oldName = req.newName) := hsame
    simp [prepareSameDirectoryRename, h1, h2, hbad]
  · intro cfg req htyp hshard hbad
    have h1 : ¬ req.dirId.ityp ≠ InodeType.DIRECTORY := not_not_intro htyp
    simp [prepareCreateLockedCurrentEdge, h1, hshard, hbad]
  · intro cfg req n'
    by_cases h1 : req.ownerId.ityp ≠ InodeType.DIRECTORY
    · simp [prepareLinkFile, Except.map, h1]
    · by_cases h2 : req.ownerId.shard ≠ cfg.shid ∨ req.fileId.shard ≠ cfg.shid
      · simp [prepareLinkFile, Except.map, h1, h2]
      · by_cases h3 : checkTransientFileCookie cfg req.fileId req.cookie ≠ .NO_ERROR
        · simp [prepareLinkFile, Except.map, h1, h2, h3]
        · simp [prepareLinkFile, Except.map, h1, h2, h3]

/-- Witness for the amended C8: renaming to the invalid name `"/"` is
rejected with `BAD_NAME`, and `LinkFile`'s prepare gives the same
verdict for the valid name `"a"` and the invalid name `"/"`. -/
theorem C8_name_validation_witness :
    prepareSameDirectoryRename cfg0 true
        ⟨ROOT_DIR_INODE_ID, fileId2, [97], 20, [47]⟩ = .error .BAD_NAME ∧
    prepareLinkFile cfg0 ⟨fileId1, calcCookie cfg0.secretKey fileId1,
        ROOT_DIR_INODE_ID, [47]⟩
      = (prepareLinkFile cfg0 ⟨fileId1, calcCookie cfg0.secretKey fileId1,
          ROOT_DIR_INODE_ID, [97]⟩).map fun e => { e with name := [47] } :=
  ⟨C8_name_validation.2.1 cfg0 true ⟨ROOT_DIR_INODE_ID, fileId2, [97], 20, [47]⟩
      (by decide) (by decide) (by decide),
   C8_name_validation.2.2.2 cfg0
      ⟨fileId1, calcCookie cfg0.secretKey fileId1, ROOT_DIR_INODE_ID, [97]⟩ [47]⟩

/-- C1: `applyLogEntry` asserts contiguity (aborting — `none` — unless
`logIndex = last_applied + 1`); the batch opens with the index advance
and a savepoint is set right after it.  When the per-entry handler
returns a typed error, the rollback to the savepoint discards every
other mutation while the index advance still persists, so the resulting
state is exactly the old state with `lastApplied := logIndex`.  On
success the whole batch — the index advance together with all of the
entry's effects — is written at once, and in either case the stored
index ends up exactly `old + 1`. -/
theorem C1_apply_log_entry (cfg : ShardCfg) (bsKeys : Nat → Nat) (s : ShardState)
    (logIndex time : Nat) (body : LogEntryBody) :
    (s.lastApplied + 1 ≠ logIndex →
      applyLogEntry cfg bsKeys s logIndex time body = none) ∧
    (s.lastApplied + 1 = logIndex →
      ∀ err b',
        applyLogEntryBody cfg bsKeys s time [.putLastApplied logIndex] body
          = some (err, b') →
        (err ≠ .NO_ERROR →
          applyLogEntry cfg bsKeys s logIndex time body
            = some (err, { s with lastApplied := logIndex })) ∧
        (err = .NO_ERROR →
          applyLogEntry cfg bsKeys s logIndex time body
            = some (err, applyBatch s b')) ∧
        (applyBatch s b').lastApplied = s.lastApplied + 1) := by
  constructor
  · intro hne
    unfold applyLogEntry
    rw [if_pos hne]
  · intro hcontig err b' hbody
    have hext := applyLogEntryBody_extends cfg bsKeys s time
      [.putLastApplied logIndex] body err b' hbody
    have hlast : (applyBatch s b').lastApplied = s.lastApplied + 1 := by
      obtain ⟨ext, rfl, hop⟩ := hext
      rw [applyBatch_append, applyBatch_lastApplied ext hop]
      exact hcontig.symm
    refine ⟨?_, ?_, hlast⟩
    · intro herr
      have ht : b'.take 1 = [BatchOp.putLastApplied logIndex] := by
        simpa using hext.take
      simp only [applyLogEntry, if_neg (not_not_intro hcontig), hbody,
        List.length_singleton]
      rw [if_pos herr, ht]
      rfl
    · intro herr
      simp only [applyLogEntry, if_neg (not_not_intro hcontig), hbody,
        List.length_singleton]
      rw [if_neg (not_not_intro herr)]

/-- Witness for C1 at a concrete apply: soft-unlinking `"a"` from the
root of `edgeState` (last applied index 5) at log index 6 succeeds and
advances the stored index to 6, and the same entry at log index 7
aborts the process (`none`). -/
theorem C1_apply_log_entry_witness :
    applyLogEntry cfg0 (fun _ => 0) edgeState 7 50
        (.softUnlinkFile ⟨ROOT_DIR_INODE_ID, fileId2, [97], 20⟩) = none ∧
    ∃ b', applyLogEntryBody cfg0 (fun _ => 0) edgeState 50 [.putLastApplied 6]
            (.softUnlinkFile ⟨ROOT_DIR_INODE_ID, fileId2, [97], 20⟩)
          = some (.NO_ERROR, b') ∧
      (applyBatch edgeState b').lastApplied = edgeState.lastApplied + 1 :=
  ⟨(C1_apply_log_entry cfg0 (fun _ => 0) edgeState 7 50
      (.softUnlinkFile ⟨ROOT_DIR_INODE_ID, fileId2, [97], 20⟩)).1 (by decide),
   _, rfl,
   ((C1_apply_log_entry cfg0 (fun _ => 0) edgeState 6 50
      (.softUnlinkFile ⟨ROOT_DIR_INODE_ID, fileId2, [97], 20⟩)).2 rfl
      TernError.NO_ERROR _ rfl).2.2⟩

/-! ## Lemmas about the `ReadDir` budget loop -/

theorem pair_eq {α β : Type} {x r : α} {y b : β} (h : (x, y) = (r, b)) :
    r = x ∧ b = y := by
  cases h
  exact ⟨rfl, rfl⟩

/-- If the budget never runs out, the loop returns every visited edge. -/
theorem readDirLoop_none (l : List (CurrentEdgeKey × CurrentEdgeBody)) :
    ∀ (budget : Int) (res : List RespEdge),
      readDirLoop budget l = (res, none) → res = l.map toRespEdge := by
  induction l with
  | nil =>
    intro budget res h
    obtain ⟨rfl, -⟩ := pair_eq h
    rfl
  | cons kv rest ih =>
    intro budget res h
    rw [readDirLoop] at h
    split at h
    · obtain ⟨-, hno⟩ := pair_eq h
      cases hno
    · rcases hrec : readDirLoop (budget - (toRespEdge kv).packedSize) rest
        with ⟨res', nh⟩
      rw [hrec] at h
      cases nh with
      | none =>
        obtain ⟨rfl, -⟩ := pair_eq h
        rw [List.map_cons, ih _ res' hrec]
      | some h' =>
        dsimp only at h
        split at h
        · obtain ⟨-, hno⟩ := pair_eq h
          cases hno
        · obtain ⟨-, hno⟩ := pair_eq h
          cases hno

/-- When the loop truncates at cursor hash `h`: the kept elements are a
strict prefix of the visited run, every kept hash is `< h`, every
dropped element's hash is `≥ h`, and `h` is the hash of some dropped
element. -/
theorem readDirLoop_some (l : List (CurrentEdgeKey × CurrentEdgeBody)) :
    ∀ (budget : Int) (res : List RespEdge) (h : Nat),
      l.Pairwise (fun a b => a.1.nameHash ≤ b.1.nameHash) →
      readDirLoop budget l = (res, some h) →
      res = (l.take res.length).map toRespEdge ∧
      res.length < l.length ∧
      (∀ e ∈ res, e.nameHash < h) ∧
      (∀ kv ∈ l.drop res.length, h ≤ kv.1.nameHash) ∧
      (∃ kv ∈ l.drop res.length, kv.1.nameHash = h) := by
  induction l with
  | nil =>
    intro budget res h _ heq
    obtain ⟨-, hno⟩ := pair_eq heq
    cases hno
  | cons kv rest ih =>
    intro budget res h hs heq
    rw [List.pairwise_cons] at hs
    obtain ⟨hhead, htail⟩ := hs
    rw [readDirLoop] at heq
    split at heq
    · obtain ⟨rfl, hsome⟩ := pair_eq heq
      cases hsome
      refine ⟨rfl, by simp, by simp, ?_, ?_⟩
      · intro kv' hkv'
        rcases List.mem_cons.mp hkv' with rfl | hmem
        · exact le_refl _
        · exact hhead kv' hmem
      · exact ⟨kv, by simp, rfl⟩
    · rcases hrec : readDirLoop (budget - (toRespEdge kv).packedSize) rest
        with ⟨res', nh⟩
      rw [hrec] at heq
      cases nh with
      | none =>
        dsimp only at heq
        obtain ⟨-, hno⟩ := pair_eq heq
        cases hno
      | some h' =>
        dsimp only at heq
        obtain ⟨hpre, hlen, hlt, hge, hex⟩ := ih _ res' h' htail hrec
        split at heq
        · rename_i hcond
          obtain ⟨hres0, hh⟩ := hcond
          obtain ⟨rfl, hsome⟩ := pair_eq heq
          cases hsome
          subst hres0
          refine ⟨rfl, by simp, by simp, ?_, ?_⟩
          · intro kv' hkv'
            rcases List.mem_cons.mp hkv' with rfl | hmem
            · exact le_of_eq hh.symm
            · exact hge kv' hmem
          · obtain ⟨kv', hkv', hkvh⟩ := hex
            exact ⟨kv', List.mem_cons_of_mem kv hkv', hkvh⟩
        · rename_i hcond
          obtain ⟨rfl, hsome⟩ := pair_eq heq
          cases hsome
          have hkvlt : (toRespEdge kv).nameHash < h := by
            rcases hres' : res' with - | ⟨e0, restres⟩
            -- res' empty: the else-condition forces the head hash ≠ h
            · have hne : ¬ (toRespEdge kv).nameHash = h := by
                intro hh
                exact hcond ⟨hres', hh⟩
              obtain ⟨kv', hkv', hkvh⟩ := hex
              have hmem : kv' ∈ rest := by
                rw [hres'] at hkv'
                simpa using hkv'
              have hle : kv.1.nameHash ≤ h := hkvh ▸ hhead kv' hmem
              exact lt_of_le_of_ne hle hne
            -- res' nonempty: its first element comes from rest's head
            · have he0lt : e0.nameHash < h := hlt e0 (by rw [hres']; simp)
              rcases rest with - | ⟨r0, rest'⟩
              · rw [hres'] at hpre
                simp at hpre
              · rw [hres'] at hpre
                simp only [List.length_cons, List.take_succ_cons,
                  List.map_cons] at hpre
                injection hpre with he0 hrest2
                have hr0 : kv.1.nameHash ≤ r0.1.nameHash := hhead r0 (by simp)
                have hfin : (toRespEdge r0).nameHash < h := by rw [← he0]; exact he0lt
                exact lt_of_le_of_lt hr0 hfin
          refine ⟨?_, ?_, ?_, ?_, ?_⟩
          · simp only [List.length_cons, List.take_succ_cons, List.map_cons]
            rw [← hpre]
          · simpa using Nat.succ_lt_succ hlen
          · intro e he
            rcases List.mem_cons.mp he with rfl | hmem
            · exact hkvlt
            · exact hlt e hmem
          · intro kv' hkv'
            rw [List.length_cons, List.drop_succ_cons] at hkv'
            exact hge kv' hkv'
          · obtain ⟨kv', hkv', hkvh⟩ := hex
            refine ⟨kv', ?_, hkvh⟩
            rw [List.length_cons, List.drop_succ_cons]
            exact hkv'

/-- In a hash-sorted edge list, every element surviving the seek
(`dropWhile (hash < startHash)`) has hash ≥ `startHash`. -/
theorem dropWhile_ge_startHash :
    ∀ (edges : List (CurrentEdgeKey × CurrentEdgeBody)) (startHash : Nat),
      edges.Pairwise (fun a b => a.1.nameHash ≤ b.1.nameHash) →
      ∀ kv ∈ edges.dropWhile fun kv => kv.1.nameHash < startHash,
        startHash ≤ kv.1.nameHash := by
  intro edges
  induction edges with
  | nil =>
    intro startHash _ kv hkv
    simp at hkv
  | cons a l ih =>
    intro startHash hs kv hkv
    rw [List.pairwise_cons] at hs
    obtain ⟨hhead, htail⟩ := hs
    by_cases ha : a.1.nameHash < startHash
    · rw [List.dropWhile_cons_of_pos (by simpa using ha)] at hkv
      exact ih startHash htail kv hkv
    · rw [List.dropWhile_cons_of_neg (by simpa using ha)] at hkv
      rcases List.mem_cons.mp hkv with rfl | hmem
      · omega
      · have := hhead kv hmem
        omega

/-- C7: a `ReadDir` response is a contiguous run of the directory's
current edges in name-hash order starting at `start_hash` (a prefix of
the post-seek run), and when truncated for budget every returned hash is
strictly below the continuation cursor `nextHash` while every remaining
edge's hash is at least `nextHash`; consequently a name-hash bucket is
never split across two pages (any stored edge sharing a hash with a
returned edge is itself returned).  `edges` is the iterator's view: the
directory's current edges in key order. -/
theorem C7_read_dir_paging (edges : List (CurrentEdgeKey × CurrentEdgeBody))
    (startHash mtu : Nat)
    (hsorted : edges.Pairwise fun a b => a.1.nameHash ≤ b.1.nameHash)
    (resp : ReadDirResp) (hresp : readDir edges startHash mtu = resp) :
    resp.results
      = ((edges.dropWhile fun kv => kv.1.nameHash < startHash).take
          resp.results.length).map toRespEdge ∧
    (∀ e ∈ resp.results, startHash ≤ e.nameHash) ∧
    (∀ e ∈ resp.results,
      ∀ kv ∈ edges.dropWhile fun kv => kv.1.nameHash < startHash,
        kv.1.nameHash = e.nameHash → toRespEdge kv ∈ resp.results) ∧
    (resp.results.length
        < (edges.dropWhile fun kv => kv.1.nameHash < startHash).length →
      (∀ e ∈ resp.results, e.nameHash < resp.nextHash) ∧
      (∀ kv ∈ (edges.dropWhile fun kv => kv.1.nameHash < startHash).drop
          resp.results.length, resp.nextHash ≤ kv.1.nameHash)) := by
  have hrun : (edges.dropWhile fun kv => kv.1.nameHash < startHash).Pairwise
      (fun a b => a.1.nameHash ≤ b.1.nameHash) :=
    List.Pairwise.sublist (List.dropWhile_sublist _) hsorted
  have hge0 := dropWhile_ge_startHash edges startHash hsorted
  unfold readDir at hresp
  dsimp only at hresp
  split at hresp
  -- complete listing: the loop consumed the whole run
  · rename_i res heqres heq
    subst hresp
    have hres := readDirLoop_none _ _ _ heq
    refine ⟨?_, ?_, ?_, ?_⟩
    · dsimp only
      rw [hres]
      rw [List.length_map, List.take_length]
    · intro e he
      dsimp only at he
      rw [hres] at he
      obtain ⟨kv, hkv, rfl⟩ := List.mem_map.mp he
      exact hge0 kv hkv
    · intro e he kv hkv _
      dsimp only
      rw [hres]
      exact List.mem_map_of_mem toRespEdge hkv
    · intro hlen
      dsimp only at hlen
      rw [hres, List.length_map] at hlen
      exact absurd hlen (lt_irrefl _)
  -- truncated: the loop stopped at cursor hash h
  · rename_i xsc res h heq
    subst hresp
    obtain ⟨hpre, hlen, hlt, hge, -⟩ := readDirLoop_some _ _ _ _ hrun heq
    refine ⟨hpre, ?_, ?_, ?_⟩
    · intro e he
      rw [hpre] at he
      obtain ⟨kv, hkv, rfl⟩ := List.mem_map.mp he
      exact hge0 kv (List.take_subset _ _ hkv)
    · intro e he kv hkv hsame
      have hkvlt : kv.1.nameHash < h := by
        have := hlt e he
        omega
      dsimp only at he ⊢
      rw [← List.take_append_drop res.length
        (edges.dropWhile fun kv => kv.1.nameHash < startHash)] at hkv
      rcases List.mem_append.mp hkv with htk | hdr
      · rw [hpre]
        exact List.mem_map_of_mem toRespEdge htk
      · exact absurd (hge kv hdr) (by omega)
    · intro _
      exact ⟨hlt, hge⟩

/-- Witness for C7: two current edges with hashes 100 and 200 under an
MTU of 60 return only the first edge with continuation cursor 200. -/
theorem C7_read_dir_paging_witness :
    readDir [(⟨ROOT_DIR_INODE_ID, 100, [97]⟩, ⟨0, fileId1, false, 20⟩),
             (⟨ROOT_DIR_INODE_ID, 200, [98]⟩, ⟨0, fileId2, false, 21⟩)] 0 60
      = ⟨[⟨fileId1, 100, [97], 20⟩], 200⟩ ∧
    (⟨[⟨fileId1, 100, [97], 20⟩], 200⟩ : ReadDirResp).results
      = (([(⟨ROOT_DIR_INODE_ID, 100, [97]⟩, (⟨0, fileId1, false, 20⟩ : CurrentEdgeBody)),
          (⟨ROOT_DIR_INODE_ID, 200, [98]⟩, ⟨0, fileId2, false, 21⟩)].dropWhile
            fun kv => kv.1.nameHash < 0).take 1).map toRespEdge :=
  ⟨by rfl,
   (C7_read_dir_paging
      [(⟨ROOT_DIR_INODE_ID, 100, [97]⟩, ⟨0, fileId1, false, 20⟩),
       (⟨ROOT_DIR_INODE_ID, 200, [98]⟩, ⟨0, fileId2, false, 21⟩)] 0 60
      (by decide) ⟨[⟨fileId1, 100, [97], 20⟩], 200⟩ (by rfl)).1⟩

/-! ## Codec lemmas -/

theorem natToLE_length (w : Nat) : ∀ v, (natToLE w v).length = w := by
  induction w with
  | zero => intro v; rfl
  | succ n ih =>
    intro v
    simp [natToLE, ih]

theorem leToNat_natToLE (w : Nat) : ∀ v, v < 256 ^ w → leToNat (natToLE w v) = v := by
  induction w with
  | zero =>
    intro v hv
    simp [pow_zero] at hv
    simp [natToLE, leToNat, hv]
  | succ n ih =>
    intro v hv
    have hdiv : v / 256 < 256 ^ n := by
      rw [Nat.div_lt_iff_lt_mul (by omega)]
      calc v < 256 ^ (n + 1) := hv
        _ = 256 ^ n * 256 := by rw [pow_succ]
    rw [natToLE, leToNat, ih (v / 256) hdiv]
    omega

theorem unpackScalar_packScalar (w v : Nat) (rest : List Nat) (h : v < 256 ^ w) :
    unpackScalar w (natToLE w v ++ rest) = .ok (v, rest) := by
  unfold unpackScalar
  rw [if_neg (by simp [natToLE_length]),
    List.take_left' (natToLE_length w v), List.drop_left' (natToLE_length w v),
    leToNat_natToLE w v h]

theorem unpackElems_packed {α : Type} (packEl : α → List Nat)
    (unpackEl : List Nat → Except BincodeErr (α × List Nat)) :
    ∀ (els : List α) (rest : List Nat),
      (∀ x ∈ els, ∀ rest', unpackEl (packEl x ++ rest') = .ok (x, rest')) →
      unpackElems unpackEl els.length (els.flatMap packEl ++ rest) = .ok (els, rest) := by
  intro els
  induction els with
  | nil => intro rest _; rfl
  | cons x xs ih =>
    intro rest hel
    rw [List.flatMap_cons, List.append_assoc, List.length_cons]
    rw [unpackElems, hel x (by simp) (xs.flatMap packEl ++ rest)]
    dsimp only
    rw [ih rest fun y hy => hel y (by simp [hy])]

theorem flatMap_length {α : Type} (packEl : α → List Nat) :
    ∀ els : List α, (els.flatMap packEl).length
      = (els.map fun x => (packEl x).length).sum := by
  intro els
  induction els with
  | nil => rfl
  | cons x xs ih => simp [List.flatMap_cons, ih]

/-- C9: the codec round-trips and is length-stable — for every `w`-byte
integral scalar value, every fixed-width byte array, every byte string
of length ≤ 255 and every list of ≤ 65535 elements of a supported
element type (one whose own pack/unpack round-trips), unpacking the
packed bytes (with any trailing bytes) returns the original value and
the remaining bytes, and the number of bytes written equals the value's
`packedSize` (`w` for scalars, `SZ` for fixed bytes, `1 + size` for
strings, `2 +` the elements' packed sizes for lists). -/
theorem C9_codec_roundtrip :
    (∀ (w v : Nat) (rest : List Nat), v < 256 ^ w →
      unpackScalar w (packScalar w v ++ rest) = .ok (v, rest) ∧
      (packScalar w v).length = w) ∧
    (∀ (x rest : List Nat),
      unpackFixedBytes x.length (packFixedBytes x ++ rest) = .ok (x, rest) ∧
      (packFixedBytes x).length = x.length) ∧
    (∀ (x rest : List Nat), x.length ≤ 255 →
      unpackBytes (packBytes x ++ rest) = .ok (x, rest) ∧
      (packBytes x).length = bytesPackedSize x) ∧
    (∀ (α : Type) (packEl : α → List Nat)
        (unpackEl : List Nat → Except BincodeErr (α × List Nat))
        (els : List α) (rest : List Nat),
      els.length ≤ 65535 →
      (∀ x ∈ els, ∀ rest', unpackEl (packEl x ++ rest') = .ok (x, rest')) →
      unpackList unpackEl (packList packEl els ++ rest) = .ok (els, rest) ∧
      (packList packEl els).length
        = listPackedSize (fun x => (packEl x).length) els) := by
  refine ⟨?_, ?_, ?_, ?_⟩
  · intro w v rest h
    exact ⟨unpackScalar_packScalar w v rest h, natToLE_length w v⟩
  · intro x rest
    constructor
    · unfold unpackFixedBytes packFixedBytes
      rw [if_neg (by simp), List.take_left, List.drop_left]
    · rfl
  · intro x rest hlen
    constructor
    · unfold unpackBytes packBytes
      simp only [List.cons_append]
      rw [if_neg (by simp), List.take_left, List.drop_left]
    · simp [packBytes, bytesPackedSize]
      omega
  · intro α packEl unpackEl els rest hlen hel
    constructor
    · unfold unpackList packList
      rw [List.append_assoc,
        unpackScalar_packScalar 2 els.length (els.flatMap packEl ++ rest)
          (by norm_num; omega)]
      exact unpackElems_packed packEl unpackEl els rest hel
    · have hcomp : (List.length ∘ packEl) = fun x => (packEl x).length := rfl
      simp [packList, listPackedSize, natToLE_length, flatMap_length, hcomp]

/-- Witness for C9: the scalar 300 on two bytes, the fixed bytes
`[1, 2, 3]`, the string `"ab"` and the list `[10, 20]` of one-byte
scalars all round-trip with their packed sizes. -/
theorem C9_codec_roundtrip_witness :
    (unpackScalar 2 (packScalar 2 300 ++ [9]) = .ok (300, [9]) ∧
      (packScalar 2 300).length = 2) ∧
    (unpackFixedBytes 3 (packFixedBytes [1, 2, 3] ++ [7]) = .ok ([1, 2, 3], [7]) ∧
      (packFixedBytes [1, 2, 3]).length = 3) ∧
    (unpackBytes (packBytes [97, 98] ++ [5]) = .ok ([97, 98], [5]) ∧
      (packBytes [97, 98]).length = bytesPackedSize [97, 98]) ∧
    (unpackList (unpackScalar 1) (packList (packScalar 1) [10, 20] ++ [3])
        = .ok ([10, 20], [3]) ∧
      (packList (packScalar 1) [10, 20]).length
        = listPackedSize (fun x => (packScalar 1 x).length) [10, 20]) :=
  ⟨C9_codec_roundtrip.1 2 300 [9] (by decide),
   C9_codec_roundtrip.2.1 [1, 2, 3] [7],
   C9_codec_roundtrip.2.2.1 [97, 98] [5] (by decide),
   C9_codec_roundtrip.2.2.2 Nat (packScalar 1) (unpackScalar 1) [10, 20] [3]
     (by decide)
     (fun x hx rest' => unpackScalar_packScalar 1 x rest'
       (by simp at hx; rcases hx with rfl | rfl <;> decide))⟩

end TernFS
